import Mathlib

/-!
Verification development for the `latestgames-backend` enrichment pipeline
(`fix_orphans_and_enrich.py`).  Python strings are modelled as lists of
characters, the SQLite store as lists of rows (in insertion order, as a
sequential table scan observes them), and HTTP traffic as explicit response
snapshots.  Fallible code is modelled with `Except`/`Option`.
-/

namespace LatestGames

/-- Python `str` values, modelled as their character sequence. -/
abbrev Str := List Char

def strOf (s : String) : Str := s.toList

/-- Python `sep in s` (substring containment test). -/
def containsSub (pat : Str) : Str → Bool
  | [] => pat.isPrefixOf []
  | c :: rest => pat.isPrefixOf (c :: rest) || containsSub pat rest

/-- Python `s.split(sep, 1)`: split at the first occurrence of `sep`,
returning the part before and the part after; `none` when `sep` is absent. -/
def splitOnce (sep : Str) : Str → Option (Str × Str)
  | [] => none
  | c :: rest =>
    if sep.isPrefixOf (c :: rest) then some ([], (c :: rest).drop sep.length)
    else
      match splitOnce sep rest with
      | some (pre, post) => some (c :: pre, post)
      | none => none

/-- Python `s.split(sep)` for a single-character separator (always returns at
least one part, the empty string splitting to `[""]`). -/
def pySplit (sep : Char) : Str → List Str
  | [] => [[]]
  | c :: rest =>
    match pySplit sep rest with
    | [] => [[]]
    | p :: ps => if c = sep then [] :: p :: ps else (c :: p) :: ps

/-- Python `sep.join(parts)`. -/
def pyJoinS (sep : Str) : List Str → Str
  | [] => []
  | [p] => p
  | p :: q :: ps => p ++ sep ++ pyJoinS sep (q :: ps)

/-- Python `parts.index(x)`: index of the first occurrence, `none` standing
for the `ValueError` path. -/
def listIndex (x : Str) : List Str → Option Nat
  | [] => none
  | y :: ys => if y = x then some 0 else (listIndex x ys).map (· + 1)

/-- Python `s.strip()` (whitespace trim at both ends). -/
def pyStrip (s : Str) : Str :=
  ((s.dropWhile Char.isWhitespace).reverse.dropWhile Char.isWhitespace).reverse

/-- Python `s.rstrip("/")`. -/
def rstripSlash (s : Str) : Str :=
  (s.reverse.dropWhile (fun c => c = '/')).reverse

/-- `MEDIA_PREFIX` in the source: the canonical RAWG media host path. -/
def mediaBase : Str := strOf "https://media.rawg.io/media/"

/-- The separator `"/media/"` the normalizer splits on. -/
def mediaSep : Str := strOf "/media/"

/-- The `"games"` path segment the normalizer searches for. -/
def gamesSeg : Str := strOf "games"

/-- The crop/resize rewrite on the part after the first `"/media/"`:
`parts = tail.split("/")`, and when the first part is `crop`/`resize`,
keep everything from the `games` segment on (or rejoin unchanged when
`parts.index("games")` raises `ValueError`). -/
def fixupTail (tail : Str) : Str :=
  match pySplit '/' tail with
  | [] => tail
  | p :: ps =>
    if p = strOf "crop" ∨ p = strOf "resize" then
      match listIndex gamesSeg (p :: ps) with
      | some gi => pyJoinS (strOf "/") ((p :: ps).drop gi)
      | none => pyJoinS (strOf "/") (p :: ps)
    else tail

/-- `normalize_rawg_image` on a (non-`None`) string argument.  The `none`
branch of the inner split is unreachable: the guard guarantees a
`"/media/"` occurrence (`mediaBase` ends in `mediaSep`). -/
def normalize_rawg_image_str (u : Str) : Str :=
  if u = [] ∨ containsSub mediaBase u = false then u
  else
    match splitOnce mediaSep u with
    | some (_, post) => mediaBase ++ fixupTail post
    | none => u

/-- `normalize_rawg_image`: `None` passes through, otherwise the string body. -/
def normalize_rawg_image : Option Str → Option Str
  | none => none
  | some u => some (normalize_rawg_image_str u)

/-- `metascore_color(score)`.  The Python `int(score)` conversion is the
identity on the declared `Optional[int]` argument type. -/
def metascore_color : Option Int → Option Str
  | none => none
  | some s =>
    if 75 ≤ s ∧ s ≤ 100 then some (strOf "green")
    else if 50 ≤ s ∧ s ≤ 74 then some (strOf "yellow")
    else if 0 ≤ s ∧ s ≤ 49 then some (strOf "red")
    else none

/-! ### Lemmas about the Python string primitives -/

theorem pySplit_ne_nil (sep : Char) (s : Str) : pySplit sep s ≠ [] := by
  induction s with
  | nil => simp [pySplit]
  | cons c rest ih =>
    cases h : pySplit sep rest with
    | nil => simp [pySplit, h]
    | cons p ps =>
      by_cases hc : c = sep <;> simp [pySplit, h, hc]

theorem pyJoin_pySplit (sep : Char) (s : Str) :
    pyJoinS [sep] (pySplit sep s) = s := by
  induction s with
  | nil => rfl
  | cons c rest ih =>
    cases h : pySplit sep rest with
    | nil => exact absurd h (pySplit_ne_nil sep rest)
    | cons p ps =>
      rw [h] at ih
      by_cases hc : c = sep
      · subst hc
        cases ps <;> simp_all [pySplit, pyJoinS]
      · cases ps <;> simp_all [pySplit, pyJoinS]

theorem pySplit_not_mem (sep : Char) (s : Str) :
    ∀ p ∈ pySplit sep s, sep ∉ p := by
  induction s with
  | nil => simp [pySplit]
  | cons c rest ih =>
    cases h : pySplit sep rest with
    | nil => exact absurd h (pySplit_ne_nil sep rest)
    | cons p ps =>
      rw [h] at ih
      intro q hq
      by_cases hc : c = sep
      · subst hc
        simp [pySplit, h] at hq
        rcases hq with hq | hq | hq
        · simp [hq]
        · exact hq ▸ ih p (List.mem_cons_self p ps)
        · exact ih q (List.mem_cons_of_mem p hq)
      · simp [pySplit, h, hc] at hq
        rcases hq with hq | hq
        · subst hq
          intro hmem
          simp only [List.mem_cons] at hmem
          rcases hmem with hmem | hmem
          · exact hc hmem.symm
          · exact ih p (List.mem_cons_self p ps) hmem
        · exact ih q (List.mem_cons_of_mem p hq)

theorem pySplit_singleton_of_not_mem (sep : Char) (p : Str) (h : sep ∉ p) :
    pySplit sep p = [p] := by
  induction p with
  | nil => rfl
  | cons c rest ih =>
    have hc : ¬c = sep := fun hcs => h (by simp [hcs])
    have hrest : pySplit sep rest = [rest] := ih (fun hm => h (by simp [hm]))
    simp [pySplit, hrest, hc]

theorem pySplit_append_sep (sep : Char) (p r : Str) (h : sep ∉ p) :
    pySplit sep (p ++ sep :: r) = p :: pySplit sep r := by
  induction p with
  | nil =>
    cases hr : pySplit sep r with
    | nil => exact absurd hr (pySplit_ne_nil sep r)
    | cons q qs => simp [pySplit, hr]
  | cons c p' ih =>
    have hc : ¬c = sep := fun hcs => h (by simp [hcs])
    have hp' : pySplit sep (p' ++ sep :: r) = p' :: pySplit sep r :=
      ih (fun hm => h (by simp [hm]))
    simp [pySplit, hp', hc]

theorem pySplit_pyJoin (sep : Char) (L : List Str) (hL : L ≠ [])
    (h : ∀ p ∈ L, sep ∉ p) : pySplit sep (pyJoinS [sep] L) = L := by
  induction L with
  | nil => exact absurd rfl hL
  | cons p L' ih =>
    cases L' with
    | nil => exact pySplit_singleton_of_not_mem sep p (h p (by simp))
    | cons q L'' =>
      have hjoin : pyJoinS [sep] (p :: q :: L'') = p ++ sep :: pyJoinS [sep] (q :: L'') := by
        simp [pyJoinS]
      rw [hjoin, pySplit_append_sep sep p _ (h p (by simp))]
      rw [ih (by simp) (fun r hr => h r (by simp [hr]))]

theorem listIndex_drop (x : Str) (L : List Str) (gi : Nat)
    (h : listIndex x L = some gi) : ∃ rest, L.drop gi = x :: rest := by
  induction L generalizing gi with
  | nil => simp [listIndex] at h
  | cons y ys ih =>
    by_cases hy : y = x
    · simp [listIndex, hy] at h
      exact ⟨ys, by simp [← h, hy]⟩
    · simp only [listIndex, if_neg hy, Option.map_eq_some'] at h
      obtain ⟨gj, hgj, hsum⟩ := h
      obtain ⟨rest, hrest⟩ := ih gj hgj
      exact ⟨rest, by simpa [← hsum] using hrest⟩

theorem containsSub_of_isPrefixOf (pat s : Str) (h : pat.isPrefixOf s = true) :
    containsSub pat s = true := by
  cases s with
  | nil => simpa [containsSub] using h
  | cons c rest => simp [containsSub, h]

theorem containsSub_exists (pat s : Str) (h : containsSub pat s = true) :
    ∃ a b, s = a ++ pat ++ b := by
  induction s with
  | nil =>
    simp only [containsSub, List.isPrefixOf_iff_prefix] at h
    obtain ⟨b, hb⟩ := h
    exact ⟨[], b, by simp [← hb]⟩
  | cons c rest ih =>
    simp only [containsSub, Bool.or_eq_true] at h
    rcases h with h | h
    · rw [List.isPrefixOf_iff_prefix] at h
      obtain ⟨b, hb⟩ := h
      exact ⟨[], b, by simp [← hb]⟩
    · obtain ⟨a, b, hab⟩ := ih h
      exact ⟨c :: a, b, by simp [hab]⟩

theorem splitOnce_isSome_of_parts (sep : Str) (hsep : sep ≠ []) (a b : Str) :
    (splitOnce sep (a ++ sep ++ b)).isSome = true := by
  induction a with
  | nil =>
    cases hs : sep with
    | nil => exact absurd hs hsep
    | cons c cs =>
      subst hs
      have hpre : (c :: cs).isPrefixOf (c :: (cs ++ b)) = true := by
        rw [List.isPrefixOf_iff_prefix]
        exact List.prefix_append (c :: cs) b
      simp only [List.nil_append, List.cons_append]
      rw [splitOnce]
      simp [hpre]
  | cons c a' ih =>
    have hshape : (c :: a') ++ sep ++ b = c :: (a' ++ sep ++ b) := by simp
    rw [hshape, splitOnce]
    split
    · simp
    · cases hso : splitOnce sep (a' ++ sep ++ b) with
      | none => rw [hso] at ih; simp at ih
      | some pr =>
        rcases pr with ⟨pre, post⟩
        simp

theorem strOf_slash : strOf "/" = ['/'] := rfl

theorem mediaBase_decomp : mediaBase = strOf "https://media.rawg.io" ++ mediaSep := by decide

theorem splitOnce_mediaBase (t : Str) :
    splitOnce mediaSep (mediaBase ++ t) = some (strOf "https://media.rawg.io", t) := by
  simp [mediaBase, mediaSep, strOf, splitOnce, List.isPrefixOf]

theorem splitOnce_mediaSep_isSome (u : Str) (h : containsSub mediaBase u = true) :
    ∃ pr, splitOnce mediaSep u = some pr := by
  obtain ⟨a, b, hab⟩ := containsSub_exists mediaBase u h
  subst hab
  rw [mediaBase_decomp]
  have hsome := splitOnce_isSome_of_parts mediaSep (by decide)
    (a ++ strOf "https://media.rawg.io") b
  rw [Option.isSome_iff_exists] at hsome
  obtain ⟨pr, hpr⟩ := hsome
  refine ⟨pr, ?_⟩
  rw [show a ++ (strOf "https://media.rawg.io" ++ mediaSep) ++ b
      = a ++ strOf "https://media.rawg.io" ++ mediaSep ++ b by simp]
  exact hpr

theorem fixupTail_idem (t : Str) : fixupTail (fixupTail t) = fixupTail t := by
  cases h : pySplit '/' t with
  | nil => exact absurd h (pySplit_ne_nil '/' t)
  | cons p ps =>
    by_cases hc : p = strOf "crop" ∨ p = strOf "resize"
    · cases hgi : listIndex gamesSeg (p :: ps) with
      | none =>
        have ht : fixupTail t = t := by
          simp only [fixupTail, h]
          rw [if_pos hc, hgi]
          have hjoin := pyJoin_pySplit '/' t
          rw [h] at hjoin
          rw [strOf_slash, hjoin]
        rw [ht]
        exact ht
      | some gi =>
        have hval : fixupTail t = pyJoinS ['/'] ((p :: ps).drop gi) := by
          simp only [fixupTail, h]
          rw [if_pos hc, hgi, strOf_slash]
        obtain ⟨rest, hdrop⟩ := listIndex_drop gamesSeg (p :: ps) gi hgi
        have hnosep : ∀ q ∈ (p :: ps).drop gi, ('/' : Char) ∉ q := by
          intro q hq
          exact pySplit_not_mem '/' t q (h ▸ List.mem_of_mem_drop hq)
        have hsplit2 : pySplit '/' (pyJoinS ['/'] ((p :: ps).drop gi)) = (p :: ps).drop gi :=
          pySplit_pyJoin '/' _ (by rw [hdrop]; simp) hnosep
        rw [hval]
        rw [hdrop] at hsplit2
        rw [hdrop] at hval ⊢
        simp only [fixupTail, hsplit2]
        rw [if_neg (by decide : ¬(gamesSeg = strOf "crop" ∨ gamesSeg = strOf "resize"))]
    · have ht : fixupTail t = t := by
        simp only [fixupTail, h]
        rw [if_neg hc]
      rw [ht]
      exact ht

theorem normalize_str_stable (u : Str)
    (h : u = [] ∨ containsSub mediaBase u = false) :
    normalize_rawg_image_str u = u := by
  simp only [normalize_rawg_image_str, if_pos h]

theorem normalize_str_idem (u : Str) :
    normalize_rawg_image_str (normalize_rawg_image_str u) = normalize_rawg_image_str u := by
  by_cases hguard : u = [] ∨ containsSub mediaBase u = false
  · rw [normalize_str_stable u hguard, normalize_str_stable u hguard]
  · have hcon : containsSub mediaBase u = true := by
      rcases hcb : containsSub mediaBase u with _ | _
      · exact absurd (Or.inr hcb) hguard
      · rfl
    obtain ⟨⟨pre, post⟩, hsp⟩ := splitOnce_mediaSep_isSome u hcon
    have h1 : normalize_rawg_image_str u = mediaBase ++ fixupTail post := by
      simp only [normalize_rawg_image_str, if_neg hguard]
      rw [hsp]
    rw [h1]
    have hne : mediaBase ++ fixupTail post ≠ [] := by
      rw [mediaBase_decomp]
      simp [mediaSep, strOf]
    have hcon2 : containsSub mediaBase (mediaBase ++ fixupTail post) = true :=
      containsSub_of_isPrefixOf _ _
        (List.isPrefixOf_iff_prefix.mpr (List.prefix_append _ _))
    have hguard2 :
        ¬(mediaBase ++ fixupTail post = [] ∨
          containsSub mediaBase (mediaBase ++ fixupTail post) = false) := by
      simp [hne, hcon2]
    simp only [normalize_rawg_image_str, if_neg hguard2]
    rw [splitOnce_mediaBase]
    simp [fixupTail_idem]

/-- C5: the image URL normalizer is idempotent, maps `None` to `None`, and
returns unchanged any empty URL or URL not containing the recognized media
path prefix. -/
theorem normalize_rawg_image_idempotent :
    (∀ u : Option Str,
        normalize_rawg_image (normalize_rawg_image u) = normalize_rawg_image u) ∧
    normalize_rawg_image none = none ∧
    (∀ s : Str, s = [] ∨ containsSub mediaBase s = false →
        normalize_rawg_image (some s) = some s) := by
  refine ⟨?_, rfl, ?_⟩
  · intro u
    cases u with
    | none => rfl
    | some s => simp [normalize_rawg_image, normalize_str_idem]
  · intro s hs
    simp [normalize_rawg_image, normalize_str_stable s hs]

/-- Witness for C5: concrete instances of each conjunct. -/
theorem normalize_rawg_image_idempotent_witness :
    normalize_rawg_image (normalize_rawg_image
      (some (strOf "https://media.rawg.io/media/crop/600/400/games/abc.jpg"))) =
      normalize_rawg_image
        (some (strOf "https://media.rawg.io/media/crop/600/400/games/abc.jpg")) ∧
    normalize_rawg_image none = none ∧
    normalize_rawg_image (some (strOf "https://example.com/x.jpg")) =
      some (strOf "https://example.com/x.jpg") :=
  ⟨normalize_rawg_image_idempotent.1 _, normalize_rawg_image_idempotent.2.1,
   normalize_rawg_image_idempotent.2.2 _ (Or.inr (by decide))⟩

/-- C4: `metascore_color` is the total, deterministic closed-range partition
green = [75,100], yellow = [50,74], red = [0,49], defined (isSome) exactly on
[0,100], and `None` maps to `None`. -/
theorem metascore_color_partition :
    metascore_color none = none ∧
    ∀ n : Int,
      (metascore_color (some n) = some (strOf "green") ↔ 75 ≤ n ∧ n ≤ 100) ∧
      (metascore_color (some n) = some (strOf "yellow") ↔ 50 ≤ n ∧ n ≤ 74) ∧
      (metascore_color (some n) = some (strOf "red") ↔ 0 ≤ n ∧ n ≤ 49) ∧
      ((metascore_color (some n)).isSome = true ↔ 0 ≤ n ∧ n ≤ 100) := by
  refine ⟨rfl, fun n => ?_⟩
  have hgy : strOf "green" ≠ strOf "yellow" := by decide
  have hgr : strOf "green" ≠ strOf "red" := by decide
  have hyr : strOf "yellow" ≠ strOf "red" := by decide
  simp only [metascore_color]
  split_ifs with h1 h2 h3
  · exact ⟨iff_of_true rfl h1,
      iff_of_false (by simp [hgy]) (by omega),
      iff_of_false (by simp [hgr]) (by omega),
      iff_of_true (by simp) (by omega)⟩
  · exact ⟨iff_of_false (by simp [hgy.symm]) (by omega),
      iff_of_true rfl h2,
      iff_of_false (by simp [hyr]) (by omega),
      iff_of_true (by simp) (by omega)⟩
  · exact ⟨iff_of_false (by simp [hgr.symm]) (by omega),
      iff_of_false (by simp [hyr.symm]) (by omega),
      iff_of_true rfl h3,
      iff_of_true (by simp) (by omega)⟩
  · exact ⟨iff_of_false (by simp) (by omega),
      iff_of_false (by simp) (by omega),
      iff_of_false (by simp) (by omega),
      iff_of_false (by simp) (by omega)⟩

/-! ### Transport Client: `_rawg_get` -/

/-- One HTTP response as the transport client sees it: a status code and,
for 200 responses, the parse result of the body (`none` models an
unparseable body, i.e. `r.json()` raising). -/
structure HttpResp (α : Type) where
  status : Nat
  json : Option α
deriving DecidableEq

/-- The observable outcome of `_rawg_get`: either the function returned a
value (`none` being the Python `None` sentinel) after making `requests`
requests, or `raise_for_status` raised for an unexpected status. -/
inductive RawgOutcome (α : Type) where
  | ret (value : Option α) (requests : Nat)
  | raised (status : Nat) (requests : Nat)
deriving DecidableEq

/-- The value a caller of `_rawg_get` observes on normal return. -/
def RawgOutcome.value {α : Type} : RawgOutcome α → Option (Option α)
  | .ret v _ => some v
  | .raised _ _ => none

/-- The retry loop of `_rawg_get`: `resp n` is the response to the `n`-th
request (0-based), `remaining` the attempts left out of `max_retries`. -/
def rawgAttempts {α : Type} (resp : Nat → HttpResp α) (made : Nat) :
    Nat → RawgOutcome α
  | 0 => .ret none made
  | remaining + 1 =>
    let r := resp made
    if r.status = 200 then
      match r.json with
      | some j => .ret (some j) (made + 1)
      | none => .ret none (made + 1)
    else if r.status = 404 then .ret none (made + 1)
    else if r.status = 429 then rawgAttempts resp (made + 1) remaining
    else if r.status = 500 ∨ r.status = 502 ∨ r.status = 503 ∨ r.status = 504 then
      rawgAttempts resp (made + 1) remaining
    else .raised r.status (made + 1)

/-- `_rawg_get(url, params, max_retries)` against a fixed response
sequence (sleeps have no observable effect in this model); the source
default for `max_retries` is 3. -/
def rawg_get {α : Type} (resp : Nat → HttpResp α) (max_retries : Nat) :
    RawgOutcome α :=
  rawgAttempts resp 0 max_retries

/-- C7 counterexample: a 404, an exhausted run of 500s, and an unparseable
200 body all make `_rawg_get` return the same `None` sentinel — the caller
cannot distinguish the "not found" result from a hard failure. -/
theorem rawg_get_404_not_distinguishable :
    (rawg_get (fun _ => (⟨404, none⟩ : HttpResp Nat)) 3).value = some none ∧
    (rawg_get (fun _ => (⟨500, none⟩ : HttpResp Nat)) 3).value = some none ∧
    (rawg_get (fun _ => (⟨200, none⟩ : HttpResp Nat)) 3).value = some none := by
  exact ⟨rfl, rfl, rfl⟩

/-- C7 (amended): a 404 on the first request is never retried — `_rawg_get`
returns immediately after exactly one request with the `None` sentinel —
but that sentinel coincides with the value returned when retries are
exhausted on server errors, so it is not distinguishable by the caller. -/
theorem rawg_get_404_behavior {α : Type} (resp : Nat → HttpResp α)
    (h404 : (resp 0).status = 404) :
    rawg_get resp 3 = .ret none 1 ∧
    ∀ resp5 : Nat → HttpResp α, (∀ i, (resp5 i).status = 500) →
      rawg_get resp5 3 = .ret none 3 := by
  constructor
  · simp [rawg_get, rawgAttempts, h404]
  · intro resp5 h5
    simp [rawg_get, rawgAttempts, h5 0, h5 1, h5 2]

/-- Witness for C7's amended theorem at concrete response sequences. -/
theorem rawg_get_404_behavior_witness :
    rawg_get (fun _ => (⟨404, none⟩ : HttpResp Nat)) 3 = .ret none 1 ∧
    rawg_get (fun _ => (⟨500, none⟩ : HttpResp Nat)) 3 = .ret none 3 :=
  ⟨(rawg_get_404_behavior (fun _ => (⟨404, none⟩ : HttpResp Nat)) rfl).1,
   (rawg_get_404_behavior (fun _ => (⟨404, none⟩ : HttpResp Nat)) rfl).2
      (fun _ => (⟨500, none⟩ : HttpResp Nat)) (fun _ => rfl)⟩

/-! ### Resource Crawlers: `fetch_all_screenshots` -/

/-- One entry of a RAWG screenshots page: the (possibly missing or empty,
i.e. falsy) image URL plus width/height. -/
structure ShotItem where
  image : Option Str
  width : Option Int
  height : Option Int
deriving DecidableEq

/-- One screenshots page: its `results` list and whether its `next` field
is truthy. -/
structure ShotsPage where
  results : List ShotItem
  next : Bool
deriving DecidableEq

/-- One accumulated screenshot record `{image, width, height}` with the
image URL already normalized. -/
structure Screenshot where
  image : Str
  width : Option Int
  height : Option Int
deriving DecidableEq

/-- The inner `for item in results` loop of `fetch_all_screenshots`:
entries with a falsy image are skipped, others are appended normalized;
as soon as the accumulated count reaches `max_images` the function
returns early (`capped = true`). -/
def collectShots (max_images : Nat) (out : List Screenshot) :
    List ShotItem → List Screenshot × Bool
  | [] => (out, false)
  | item :: rest =>
    match item.image with
    | none => collectShots max_images out rest
    | some img =>
      if img = [] then collectShots max_images out rest
      else
        let out2 := out ++ [⟨normalize_rawg_image_str img, item.width, item.height⟩]
        if max_images ≤ out2.length then (out2, true)
        else collectShots max_images out2 rest

/-- The `while True` page loop of `fetch_all_screenshots`.  The upstream
sub-resource is the given page list; a request beyond it is the `None`
response coalesced to `{}` (no results, no `next`).  One request is issued
per iteration; the second component counts them. -/
def fetchShotsGo (max_images : Nat) : List ShotsPage → List Screenshot → Nat →
    List Screenshot × Nat
  | [], out, reqs => (out, reqs + 1)
  | pg :: rest, out, reqs =>
    let r := collectShots max_images out pg.results
    if r.2 then (r.1, reqs + 1)
    else if pg.next then fetchShotsGo max_images rest r.1 (reqs + 1)
    else (r.1, reqs + 1)

/-- `fetch_all_screenshots(game_id, max_images)` against a fixed page
snapshot: the accumulated screenshots and the number of page requests. -/
def fetch_all_screenshots (max_images : Nat) (pages : List ShotsPage) :
    List Screenshot × Nat :=
  fetchShotsGo max_images pages [] 0

/-- An image field that Python's `if not img` does not skip. -/
def truthyImage (o : Option Str) : Prop := o ≠ none ∧ o ≠ some []

/-- A full page in C6's scenario: `page_size` entries, each carrying a
truthy image. -/
def fullPage (page_size : Nat) (pg : ShotsPage) : Prop :=
  pg.results.length = page_size ∧ ∀ item ∈ pg.results, truthyImage item.image

/-- C6's simulated sub-resource of N pages: every page full, the `next`
indicator present on every page but the last. -/
def goodPages (page_size : Nat) : List ShotsPage → Prop
  | [] => True
  | [pg] => fullPage page_size pg ∧ pg.next = false
  | pg :: pg2 :: rest =>
    fullPage page_size pg ∧ pg.next = true ∧ goodPages page_size (pg2 :: rest)

instance truthyImageDec (o : Option Str) : Decidable (truthyImage o) := by
  unfold truthyImage; infer_instance

instance fullPageDec (ps : Nat) (pg : ShotsPage) : Decidable (fullPage ps pg) := by
  unfold fullPage; infer_instance

instance goodPagesDec (ps : Nat) : (pages : List ShotsPage) → Decidable (goodPages ps pages)
  | [] => by unfold goodPages; infer_instance
  | [_] => by unfold goodPages; infer_instance
  | _ :: pg2 :: rest =>
    haveI : Decidable (goodPages ps (pg2 :: rest)) := goodPagesDec ps (pg2 :: rest)
    by unfold goodPages; infer_instance

theorem collectShots_full (C : Nat) (items : List ShotItem)
    (hfull : ∀ item ∈ items, truthyImage item.image) :
    ∀ out : List Screenshot, out.length < C →
      (collectShots C out items).1.length = min (out.length + items.length) C ∧
      ((collectShots C out items).2 = true ↔ C ≤ out.length + items.length) := by
  induction items with
  | nil =>
    intro out hout
    constructor
    · simp [collectShots]; omega
    · simp [collectShots]; omega
  | cons item rest ih =>
    intro out hout
    obtain ⟨hnn, hne⟩ := hfull item (List.mem_cons_self item rest)
    cases himg : item.image with
    | none => exact absurd himg hnn
    | some img =>
      have himg_ne : ¬img = [] := fun hn => hne (by rw [himg, hn])
      simp only [collectShots, himg, if_neg himg_ne]
      by_cases hcap : C ≤ (out ++
          [(⟨normalize_rawg_image_str img, item.width, item.height⟩ : Screenshot)]).length
      · rw [if_pos hcap]
        simp only [List.length_append, List.length_cons, List.length_nil] at hcap
        constructor
        · simp only [List.length_append, List.length_cons, List.length_nil]
          omega
        · simp only [List.length_cons]
          constructor
          · intro _
            omega
          · intro _
            simp
      · rw [if_neg hcap]
        simp only [List.length_append, List.length_cons, List.length_nil] at hcap
        have hout2 : (out ++
            [(⟨normalize_rawg_image_str img, item.width, item.height⟩ : Screenshot)]).length
            = out.length + 1 := by simp
        have hcall := ih (fun i hi => hfull i (List.mem_cons_of_mem item hi))
          (out ++ [(⟨normalize_rawg_image_str img, item.width, item.height⟩ : Screenshot)])
          (by rw [hout2]; omega)
        rw [hout2] at hcall
        obtain ⟨h1, h2⟩ := hcall
        constructor
        · rw [h1]
          simp only [List.length_cons]
          have harith : out.length + 1 + rest.length = out.length + (rest.length + 1) := by
            omega
          rw [harith]
        · rw [h2]
          simp only [List.length_cons]
          omega

theorem fetchShotsGo_good (C ps : Nat) (_hC : 1 ≤ C) (hps : 1 ≤ ps) :
    ∀ pages : List ShotsPage, pages ≠ [] → goodPages ps pages →
    ∀ out : List Screenshot, ∀ reqs : Nat, out.length < C →
      (fetchShotsGo C pages out reqs).1.length =
        min (out.length + pages.length * ps) C ∧
      (fetchShotsGo C pages out reqs).2 =
        reqs + min pages.length ((C - out.length + ps - 1) / ps) := by
  intro pages
  induction pages with
  | nil => intro h; exact absurd rfl h
  | cons pg rest ih =>
    intro _ hgood out reqs hout
    have hfull : fullPage ps pg := by
      cases rest with
      | nil => exact hgood.1
      | cons pg2 rest2 => exact hgood.1
    have hcoll := collectShots_full C pg.results hfull.2 out hout
    rw [hfull.1] at hcoll
    by_cases hcap : C ≤ out.length + ps
    · have hc2 : (collectShots C out pg.results).2 = true := hcoll.2.mpr hcap
      simp only [fetchShotsGo, hc2, if_true]
      constructor
      · rw [hcoll.1]
        have hmul : ps ≤ (rest.length + 1) * ps := Nat.le_mul_of_pos_left ps (by omega)
        simp only [List.length_cons]
        omega
      · have h1 : (C - out.length + ps - 1) / ps = 1 := by
          apply Nat.div_eq_of_lt_le <;> omega
        rw [h1]
        simp only [List.length_cons]
        omega
    · have hc2 : (collectShots C out pg.results).2 = false := by
        rcases hcb : (collectShots C out pg.results).2 with _ | _
        · rfl
        · exact absurd (hcoll.2.mp hcb) hcap
      have hlen : (collectShots C out pg.results).1.length = out.length + ps := by
        rw [hcoll.1]; omega
      simp only [fetchShotsGo, hc2, Bool.false_eq_true, if_false]
      cases rest with
      | nil =>
        have hnext : pg.next = false := hgood.2
        simp only [hnext, Bool.false_eq_true, if_false]
        constructor
        · rw [hlen]; simp only [List.length_cons, List.length_nil]; omega
        · have hdivpos : 1 ≤ (C - out.length + ps - 1) / ps := by
            rw [Nat.one_le_div_iff (by omega)]; omega
          simp only [List.length_cons, List.length_nil]
          omega
      | cons pg2 rest2 =>
        have hnext : pg.next = true := hgood.2.1
        have hgood2 : goodPages ps (pg2 :: rest2) := hgood.2.2
        simp only [hnext, if_true]
        have hout2 : (collectShots C out pg.results).1.length < C := by
          rw [hlen]; omega
        obtain ⟨ihlen, ihreq⟩ := ih (by simp) hgood2 _ (reqs + 1) hout2
        rw [hlen] at ihlen ihreq
        constructor
        · rw [ihlen]
          congr 1
          simp only [List.length_cons]
          have : (rest2.length + 1 + 1) * ps = rest2.length * ps + ps + ps := by ring
          have h2 : (rest2.length + 1) * ps = rest2.length * ps + ps := by ring
          omega
        · rw [ihreq]
          have hdiv : (C - out.length + ps - 1) / ps
              = (C - (out.length + ps) + ps - 1) / ps + 1 := by
            rw [Nat.div_eq_sub_div (by omega) (by omega)]
            congr 2
            omega
          rw [hdiv]
          simp only [List.length_cons]
          have hmin := Nat.succ_min_succ (rest2.length + 1)
            ((C - (out.length + ps) + ps - 1) / ps)
          omega

/-- C6: for a simulated screenshots sub-resource of N full pages of
`page_size` truthy entries each (with a `next` indicator on all but the
last page) and a soft cap `C ≥ 1` (with `page_size ≥ 1`),
`fetch_all_screenshots` terminates with exactly `min (N * page_size) C`
images, issuing `⌈min (N * page_size) C / page_size⌉` page requests
(which is N when the cap is not reached). -/
theorem fetch_all_screenshots_pagination (C ps : Nat) (pages : List ShotsPage)
    (hC : 1 ≤ C) (hps : 1 ≤ ps) (hne : pages ≠ []) (hgood : goodPages ps pages) :
    (fetch_all_screenshots C pages).1.length = min (pages.length * ps) C ∧
    (fetch_all_screenshots C pages).2 = (min (pages.length * ps) C + ps - 1) / ps := by
  obtain ⟨hlen, hreq⟩ := fetchShotsGo_good C ps hC hps pages hne hgood [] 0
    (by simpa using hC)
  constructor
  · simpa [fetch_all_screenshots] using hlen
  · have hreq2 : (fetchShotsGo C pages [] 0).2
        = min pages.length ((C + ps - 1) / ps) := by
      rw [hreq]; simp
    rw [fetch_all_screenshots, hreq2]
    generalize hN : pages.length = N
    rcases le_or_lt C (N * ps) with hle | hlt
    · have hmin : min (N * ps) C = C := by omega
      rw [hmin]
      have hq : (C + ps - 1) / ps ≤ N := by
        rw [Nat.div_le_iff_le_mul_add_pred (by omega)]
        have hcomm : ps * N = N * ps := Nat.mul_comm ps N
        omega
      exact min_eq_right hq
    · have hmin : min (N * ps) C = N * ps := by omega
      rw [hmin]
      have hNval : (N * ps + ps - 1) / ps = N := by
        apply Nat.div_eq_of_lt_le
        · omega
        · have : (N + 1) * ps = N * ps + ps := by ring
          omega
      rw [hNval]
      have hq : N + 1 ≤ (C + ps - 1) / ps := by
        rw [Nat.le_div_iff_mul_le (by omega)]
        have h1 : (N + 1) * ps = N * ps + ps := by ring
        omega
      exact min_eq_left (by omega)

/-- Witness for C6 at a concrete 3-page, page-size-2, cap-5 sub-resource:
5 images are returned in exactly 3 page requests. -/
theorem fetch_all_screenshots_pagination_witness :
    (1 ≤ 5 ∧ 1 ≤ 2 ∧
      goodPages 2
        [⟨[⟨some (strOf "a"), none, none⟩, ⟨some (strOf "b"), none, none⟩], true⟩,
         ⟨[⟨some (strOf "c"), none, none⟩, ⟨some (strOf "d"), none, none⟩], true⟩,
         ⟨[⟨some (strOf "e"), none, none⟩, ⟨some (strOf "f"), none, none⟩], false⟩]) ∧
    (fetch_all_screenshots 5
        [⟨[⟨some (strOf "a"), none, none⟩, ⟨some (strOf "b"), none, none⟩], true⟩,
         ⟨[⟨some (strOf "c"), none, none⟩, ⟨some (strOf "d"), none, none⟩], true⟩,
         ⟨[⟨some (strOf "e"), none, none⟩, ⟨some (strOf "f"), none, none⟩], false⟩]).1.length = 5 ∧
    (fetch_all_screenshots 5
        [⟨[⟨some (strOf "a"), none, none⟩, ⟨some (strOf "b"), none, none⟩], true⟩,
         ⟨[⟨some (strOf "c"), none, none⟩, ⟨some (strOf "d"), none, none⟩], true⟩,
         ⟨[⟨some (strOf "e"), none, none⟩, ⟨some (strOf "f"), none, none⟩], false⟩]).2 = 3 := by
  refine ⟨⟨by decide, by decide, by decide⟩, ?_⟩
  have h := fetch_all_screenshots_pagination 5 2
    [⟨[⟨some (strOf "a"), none, none⟩, ⟨some (strOf "b"), none, none⟩], true⟩,
     ⟨[⟨some (strOf "c"), none, none⟩, ⟨some (strOf "d"), none, none⟩], true⟩,
     ⟨[⟨some (strOf "e"), none, none⟩, ⟨some (strOf "f"), none, none⟩], false⟩]
    (by decide) (by decide) (by decide) (by decide)
  simpa using h

/-! ### Data model: the SQLite store

Tables are lists of rows in insertion order (as a sequential table scan
observes them).  `save_images_to_disk` only touches the filesystem and is
outside the store model. -/

/-- A row of the `games` table.  The RAWG user rating is a JSON float that
the pipeline only stores and copies, modelled as a rational. -/
structure GameRow where
  id : Int
  slug : Str
  name : Str
  released : Option Str
  rating : Option Rat
  description : Option Str
  website : Option Str
  age_rating : Option Str
  cover_image : Option Str
  metascore_number : Option Int
  metascore_color : Option Str
deriving DecidableEq

/-- A row of the `stores` vocabulary table (`logo_url`/`hover_image_url`
are never written by this script). -/
structure StoreRow where
  id : Int
  name : Option Str
  slug : Option Str
  domain : Option Str
deriving DecidableEq

/-- A row of the `media` table (the AUTOINCREMENT id never conflicts and
is omitted). -/
structure MediaRow where
  game_id : Int
  type : Str
  url : Str
  preview_url : Option Str
  position : Option Int
deriving DecidableEq

/-- A row of the `game_suggestions` table (AUTOINCREMENT id omitted). -/
structure SuggRow where
  game_id : Int
  position : Int
  suggested_id : Option Int
  name : Option Str
  image_url : Option Str
  platforms_csv : Option Str
  metascore_number : Option Int
  metascore_color : Option Str
  released : Option Str
  genres_csv : Option Str
deriving DecidableEq

/-- The relational store: every table this script reads or writes. -/
structure DB where
  games : List GameRow
  game_developers : List (Int × Str)
  game_publishers : List (Int × Str)
  game_tags : List (Int × Str)
  game_series_links : List (Int × Str × Str)
  game_additions_links : List (Int × Str × Str)
  genres : List (Int × Str)
  game_genres : List (Int × Int)
  platforms : List (Int × Str)
  game_platforms : List (Int × Int)
  stores : List StoreRow
  game_stores : List (Int × Int × Option Str)
  media : List MediaRow
  screenshots : List (Int × Str)
  game_suggestions : List SuggRow
deriving DecidableEq

/-- SQLite `INSERT OR IGNORE`: appended unless an existing row conflicts
under the table's uniqueness constraints. -/
def insertOrIgnore {R : Type} (conflict : R → R → Bool) (t : List R) (r : R) :
    List R :=
  if t.any (fun x => conflict x r) then t else t ++ [r]

/-- `executemany` of `INSERT OR IGNORE` rows. -/
def insertAll {R : Type} (conflict : R → R → Bool) (t : List R) (rows : List R) :
    List R :=
  rows.foldl (insertOrIgnore conflict) t

/-- Conflict on the whole row (tables whose PRIMARY KEY is every column). -/
def wholeRowConflict {R : Type} [DecidableEq R] (x r : R) : Bool := decide (x = r)

/-- Conflict for `games` (id PRIMARY KEY). -/
def gamesConflict (x r : GameRow) : Bool := decide (x.id = r.id)

/-- Conflict for `genres`/`platforms` (id PRIMARY KEY, name UNIQUE). -/
def vocabConflict (x r : Int × Str) : Bool := decide (x.1 = r.1 ∨ x.2 = r.2)

/-- Conflict for `stores` (id PRIMARY KEY, slug UNIQUE; SQLite treats NULL
slugs as distinct). -/
def storesConflict (x r : StoreRow) : Bool :=
  decide (x.id = r.id ∨ (r.slug ≠ none ∧ x.slug = r.slug))

/-- Conflict for `game_stores` (PRIMARY KEY (game_id, store_id)). -/
def gameStoresConflict (x r : Int × Int × Option Str) : Bool :=
  decide (x.1 = r.1 ∧ x.2.1 = r.2.1)

/-- Conflict for `media` (UNIQUE (game_id, type, url)). -/
def mediaConflict (x r : MediaRow) : Bool :=
  decide (x.game_id = r.game_id ∧ x.type = r.type ∧ x.url = r.url)

/-- SQLite `INSERT OR REPLACE` into `game_suggestions`
(UNIQUE (game_id, position)): conflicting rows are deleted, the new row
appended. -/
def replaceInto (t : List SuggRow) (r : SuggRow) : List SuggRow :=
  t.filter (fun x => !decide (x.game_id = r.game_id ∧ x.position = r.position)) ++ [r]

/-- SQL `UPDATE games SET ... WHERE id = gid`. -/
def updateGames (t : List GameRow) (gid : Int) (f : GameRow → GameRow) :
    List GameRow :=
  t.map (fun g => if g.id = gid then f g else g)

/-- `SELECT ... FROM games WHERE id = ?` (id is the primary key). -/
def findGame (db : DB) (gid : Int) : Option GameRow :=
  db.games.find? (fun g => decide (g.id = gid))

/-! ### Python value helpers -/

/-- Python `x or None` for an optional string (the empty string is falsy). -/
def orNoneStr : Option Str → Option Str
  | some s => if s = [] then none else some s
  | none => none

/-- Python `a or b` for optional strings. -/
def pyOrStr (a b : Option Str) : Option Str :=
  match a with
  | some s => if s = [] then b else some s
  | none => b

/-- Python `x or None` for an optional number (0 is falsy). -/
def orNoneNum : Option Rat → Option Rat
  | some q => if q = 0 then none else some q
  | none => none

/-- Python `a or b` for optional ints (0 is falsy). -/
def pyOrInt (a b : Option Int) : Option Int :=
  match a with
  | some n => if n = 0 then b else some n
  | none => b

/-- SQL `COALESCE(new, old)`. -/
def coalesce {α : Type} (new old : Option α) : Option α :=
  match new with
  | some v => some v
  | none => old

/-- Python `str(n)` for an int. -/
def intToStr (n : Int) : Str := (toString n).toList

/-! ### Detail record shape -/

/-- A named sub-object `{"name": ...}`. -/
structure NamedObj where
  name : Option Str
deriving DecidableEq

/-- A genre vocabulary entry `{"id": ..., "name": ...}`. -/
structure IdName where
  id : Option Int
  name : Option Str
deriving DecidableEq

/-- A platform entry `{"platform": {...}}` (the inner object may be null). -/
structure PlatEntry where
  platform : Option IdName
deriving DecidableEq

/-- A `short_screenshots` entry (a list element may be null). -/
structure ShortShot where
  image : Option Str
deriving DecidableEq

/-- The store object inside a stores entry. -/
structure StoreObj where
  id : Option Int
  name : Option Str
  slug : Option Str
  domain : Option Str
deriving DecidableEq

/-- A stores entry `{"id": ..., "url": ..., "store": {...}}`. -/
structure StoreEntry where
  id : Option Int
  url : Option Str
  store : Option StoreObj
deriving DecidableEq

/-- The fields of a RAWG game detail record the pipeline reads. -/
structure Details where
  id : Int
  slug : Option Str
  name : Option Str
  released : Option Str
  rating : Option Rat
  metacritic : Option Int
  description_raw : Option Str
  website : Option Str
  esrb_rating : Option NamedObj
  background_image : Option Str
  background_image_additional : Option Str
  short_screenshots : List (Option ShortShot)
  developers : List NamedObj
  publishers : List NamedObj
  tags : List NamedObj
  genres : List IdName
  platforms : List PlatEntry
  stores : List StoreEntry
deriving DecidableEq

/-- The `for k in (...)` scan over the two background fields in
`choose_cover_from` (first truthy value wins). -/
def firstTruthy : List (Option Str) → Option Str
  | [] => none
  | v :: rest =>
    match v with
    | some s => if s = [] then firstTruthy rest else some s
    | none => firstTruthy rest

/-- The fallback scan over `short_screenshots` in `choose_cover_from`. -/
def coverFromShots : List (Option ShortShot) → Option Str
  | [] => none
  | s :: rest =>
    match (s.getD ⟨none⟩).image with
    | some img =>
      if img = [] then coverFromShots rest else some (normalize_rawg_image_str img)
    | none => coverFromShots rest

/-- `choose_cover_from(details)`. -/
def choose_cover_from (d : Details) : Option Str :=
  match firstTruthy [d.background_image, d.background_image_additional] with
  | some v => some (normalize_rawg_image_str v)
  | none => coverFromShots d.short_screenshots

/-! ### Normalizer / Upsert layer -/

/-- `upsert_game_core(conn, details)`: `INSERT OR IGNORE` of the core row
(id, slug, name, released, rating — every other column NULL), then the
`UPDATE ... SET col = COALESCE(?, col)` of the enrichable fields.  The
freshly fetched value is the FIRST `COALESCE` argument, so a non-null
incoming value always wins; the slug/name parameters are never null. -/
def upsert_game_core (db : DB) (d : Details) : DB :=
  let gid := d.id
  let slug := match d.slug with
    | some s => if s = [] then intToStr gid else s
    | none => intToStr gid
  let name := match d.name with
    | some s => if s = [] then slug else s
    | none => slug
  let released := orNoneStr d.released
  let rating := orNoneNum d.rating
  let mscore := d.metacritic
  let mcolor := metascore_color mscore
  let games1 := insertOrIgnore gamesConflict db.games
    ⟨gid, slug, name, released, rating, none, none, none, none, none, none⟩
  let about := orNoneStr d.description_raw
  let website := orNoneStr d.website
  let esrb := d.esrb_rating.getD ⟨none⟩
  let age := orNoneStr esrb.name
  let cover := choose_cover_from d
  let games2 := updateGames games1 gid (fun g =>
    { g with
      description := coalesce about g.description
      website := coalesce website g.website
      age_rating := coalesce age g.age_rating
      cover_image := coalesce cover g.cover_image
      released := coalesce released g.released
      rating := coalesce rating g.rating
      slug := slug
      name := name
      metascore_number := coalesce mscore g.metascore_number
      metascore_color := coalesce mcolor g.metascore_color })
  { db with games := games2 }

/-- `[x.get("name") for x in l if x.get("name")]`. -/
def namesOf (l : List NamedObj) : List Str :=
  l.filterMap fun d =>
    match d.name with
    | some n => if n = [] then none else some n
    | none => none

/-- `upsert_lists(conn, gid, details)`: developers/publishers/tags as
(game_id, stripped name) `INSERT OR IGNORE` rows; each `executemany` only
runs when its name list is non-empty. -/
def upsert_lists (db : DB) (gid : Int) (d : Details) : DB :=
  let devs := namesOf d.developers
  let pubs := namesOf d.publishers
  let tags := namesOf d.tags
  let db1 := if devs ≠ [] then
      { db with game_developers :=
                  insertAll wholeRowConflict db.game_developers
                    (devs.map (fun n => (gid, pyStrip n))) }
    else db
  let db2 := if pubs ≠ [] then
      { db1 with game_publishers :=
                   insertAll wholeRowConflict db1.game_publishers
                     (pubs.map (fun n => (gid, pyStrip n))) }
    else db1
  if tags ≠ [] then
    { db2 with game_tags :=
                 insertAll wholeRowConflict db2.game_tags
                   (tags.map (fun n => (gid, pyStrip n))) }
  else db2

/-- One iteration of the genres loop in `upsert_genres_platforms`
(`if gid_raw and gname`: both must be truthy). -/
def genreStep (gid : Int) (db : DB) (g : IdName) : DB :=
  match g.id, g.name with
  | some gidRaw, some gname =>
    if gidRaw ≠ 0 ∧ gname ≠ [] then
      { db with
        genres := insertOrIgnore vocabConflict db.genres (gidRaw, pyStrip gname)
        game_genres := insertOrIgnore wholeRowConflict db.game_genres (gid, gidRaw) }
    else db
  | _, _ => db

/-- One iteration of the platforms loop (`plat = p.get("platform")`, with
`(plat or {})` defaulting). -/
def platformStep (gid : Int) (db : DB) (p : PlatEntry) : DB :=
  let plat := p.platform.getD ⟨none, none⟩
  match plat.id, plat.name with
  | some pidRaw, some pname =>
    if pidRaw ≠ 0 ∧ pname ≠ [] then
      { db with
        platforms := insertOrIgnore vocabConflict db.platforms (pidRaw, pyStrip pname)
        game_platforms := insertOrIgnore wholeRowConflict db.game_platforms (gid, pidRaw) }
    else db
  | _, _ => db

/-- `upsert_genres_platforms(conn, gid, details)`. -/
def upsert_genres_platforms (db : DB) (gid : Int) (d : Details) : DB :=
  let db1 := d.genres.foldl (genreStep gid) db
  d.platforms.foldl (platformStep gid) db1

/-- One iteration of the stores loop in `upsert_store_links`: a truthy
store id inserts the vocabulary row and records the link row
(`sid = store_obj.get("id") or s.get("id")`). -/
def storeStep (gid : Int) (acc : DB × List (Int × Int × Option Str))
    (s : StoreEntry) : DB × List (Int × Int × Option Str) :=
  let url := orNoneStr s.url
  let so := s.store.getD ⟨none, none, none, none⟩
  match pyOrInt so.id s.id with
  | some n =>
    if n ≠ 0 then
      ({ acc.1 with stores :=
                      insertOrIgnore storesConflict acc.1.stores
                        ⟨n, orNoneStr so.name, orNoneStr so.slug, orNoneStr so.domain⟩ },
       acc.2 ++ [(gid, n, url)])
    else acc
  | none => acc

/-- `upsert_store_links(conn, gid, details)`. -/
def upsert_store_links (db : DB) (gid : Int) (d : Details) : DB :=
  let acc := d.stores.foldl (storeStep gid) (db, [])
  if acc.2 ≠ [] then
    { acc.1 with game_stores :=
                   insertAll gameStoresConflict acc.1.game_stores acc.2 }
  else acc.1

/-- A series/additions list entry `{"name": ..., "slug": ...}`. -/
structure NameSlug where
  name : Option Str
  slug : Option Str
deriving DecidableEq

/-- Rows built from a series/additions response: truthy name and slug
become `(gid, name.strip(), "https://rawg.io/games/<slug>".rstrip("/"))`. -/
def linkRowsOf (gid : Int) (results : List NameSlug) : List (Int × Str × Str) :=
  results.filterMap fun s =>
    match s.name, s.slug with
    | some n, some sl =>
      if n ≠ [] ∧ sl ≠ [] then
        some (gid, pyStrip n, rstripSlash (strOf "https://rawg.io/games/" ++ sl))
      else none
    | _, _ => none

/-! ### Remaining crawlers -/

/-- A movies endpoint data object (`{"max": ..., "480": ...}`). -/
structure MovieData where
  maxq : Option Str
  q480 : Option Str
deriving DecidableEq

/-- A movies endpoint entry. -/
structure MovieItem where
  data : Option MovieData
  preview : Option Str
  name : Option Str
deriving DecidableEq

/-- A normalized movie as built by `fetch_movies`. -/
structure Movie where
  url : Str
  preview : Option Str
  name : Option Str
deriving DecidableEq

/-- The normalization loop of `fetch_movies`
(`url = data.get("max") or data.get("480")`, kept when truthy). -/
def fetch_movies_list (results : List MovieItem) : List Movie :=
  results.filterMap fun item =>
    let data := item.data.getD ⟨none, none⟩
    match pyOrStr data.maxq data.q480 with
    | some u => if u = [] then none else some ⟨u, item.preview, item.name⟩
    | none => none

/-- A suggested-games endpoint entry. -/
structure SuggItemRaw where
  id : Option Int
  name : Option Str
  background_image : Option Str
  released : Option Str
  metacritic : Option Int
  platforms : List PlatEntry
  genres : List NamedObj
deriving DecidableEq

/-- A normalized suggestion as built by `fetch_suggestions`. -/
structure SuggFetched where
  id : Option Int
  name : Option Str
  image : Option Str
  released : Option Str
  metacritic : Option Int
  platforms : List (Option Str)
  genres : List Str
deriving DecidableEq

/-- The normalization loop of `fetch_suggestions` over `results[:limit]`. -/
def fetch_suggestions_list (results : List SuggItemRaw) (limit : Nat) :
    List SuggFetched :=
  (results.take limit).map fun item =>
    ⟨item.id, item.name, normalize_rawg_image item.background_image,
     item.released, item.metacritic,
     item.platforms.map (fun p => (p.platform.getD ⟨none, none⟩).name),
     namesOf item.genres⟩

/-! ### Media / suggestion storage -/

/-- Builds `(rows_media, rows_legacy)` in `store_media_images`: falsy URLs
are skipped, `pos` counts kept rows from 1, the legacy mirror caps at 40. -/
def mediaImageRows (gid : Int) : List Screenshot → Nat →
    List MediaRow × List (Int × Str)
  | [], _ => ([], [])
  | item :: rest, pos =>
    if item.image = [] then mediaImageRows gid rest pos
    else
      let r := mediaImageRows gid rest (pos + 1)
      (⟨gid, strOf "image", item.image, none, some (Int.ofNat pos)⟩ :: r.1,
       if pos ≤ 40 then (gid, item.image) :: r.2 else r.2)

/-- `store_media_images(conn, gid, images)`: `INSERT OR IGNORE` into
`media`, and a plain bulk INSERT into the legacy `screenshots` table only
when that table currently has no row for the item. -/
def store_media_images (db : DB) (gid : Int) (images : List Screenshot) : DB :=
  if images = [] then db
  else
    let rows := mediaImageRows gid images 1
    let db1 := if rows.1 ≠ [] then
        { db with media := insertAll mediaConflict db.media rows.1 }
      else db
    if db1.screenshots.any (fun r => decide (r.1 = gid)) = false ∧ rows.2 ≠ [] then
      { db1 with screenshots := db1.screenshots ++ rows.2 }
    else db1

/-- The rows of `store_media_videos` (falsy URLs skipped, positions from 1). -/
def mediaVideoRows (gid : Int) : List Movie → Nat → List MediaRow
  | [], _ => []
  | v :: rest, pos =>
    if v.url = [] then mediaVideoRows gid rest pos
    else
      ⟨gid, strOf "video", v.url, v.preview, some (Int.ofNat pos)⟩
        :: mediaVideoRows gid rest (pos + 1)

/-- `store_media_videos(conn, gid, videos)`. -/
def store_media_videos (db : DB) (gid : Int) (videos : List Movie) : DB :=
  if videos = [] then db
  else
    let rows := mediaVideoRows gid videos 1
    if rows ≠ [] then { db with media := insertAll mediaConflict db.media rows }
    else db

/-- `cover_fallback_from_images(conn, gid, images)`: set `cover_image` from
the first fetched screenshot when the stored one is absent/blank. -/
def cover_fallback_from_images (db : DB) (gid : Int) (images : List Screenshot) :
    DB :=
  match findGame db gid with
  | none => db
  | some g =>
    if pyStrip (g.cover_image.getD []) ≠ [] then db
    else
      match images with
      | [] => db
      | first :: _ =>
        { db with games :=
                    updateGames db.games gid
                      (fun g2 => { g2 with cover_image := some first.image }) }

/-- The REPLACE rows of `store_suggestions` (`for s in suggestions[:8]`,
position counter from 1). -/
def suggRows (gid : Int) : List SuggFetched → Int → List SuggRow
  | [], _ => []
  | s :: rest, pos =>
    let platforms := s.platforms.filterMap fun p =>
      match p with
      | some q => if q = [] then none else some q
      | none => none
    ⟨gid, pos, s.id, s.name, s.image,
     if platforms ≠ [] then some (pyJoinS (strOf "; ") platforms) else none,
     s.metacritic, metascore_color s.metacritic, s.released,
     if s.genres ≠ [] then some (pyJoinS (strOf "; ") s.genres) else none⟩
      :: suggRows gid rest (pos + 1)

/-- `store_suggestions(conn, gid, suggestions)`: an empty list returns
without touching the table; otherwise INSERT OR REPLACE row by row. -/
def store_suggestions (db : DB) (gid : Int) (suggestions : List SuggFetched) :
    DB :=
  if suggestions = [] then db
  else
    { db with game_suggestions :=
        (suggRows gid (suggestions.take 8) 1).foldl replaceInto db.game_suggestions }

/-! ### Completeness Oracle -/

/-- `needs_enrich(conn, gid)`: true when the row is absent, any of the four
scalar fields is NULL/empty, or any of the eight link tables has no row
for the item. -/
def needs_enrich (db : DB) (gid : Int) : Bool :=
  match findGame db gid with
  | none => true
  | some g =>
    let no_about := decide (g.description.getD [] = [])
    let no_site := decide (g.website.getD [] = [])
    let no_age := decide (g.age_rating.getD [] = [])
    let no_cover := decide (g.cover_image.getD [] = [])
    let no_devs := !db.game_developers.any (fun r => decide (r.1 = gid))
    let no_pubs := !db.game_publishers.any (fun r => decide (r.1 = gid))
    let no_tags := !db.game_tags.any (fun r => decide (r.1 = gid))
    let no_series := !db.game_series_links.any (fun r => decide (r.1 = gid))
    let no_adds := !db.game_additions_links.any (fun r => decide (r.1 = gid))
    let no_genres := !db.game_genres.any (fun r => decide (r.1 = gid))
    let no_platforms := !db.game_platforms.any (fun r => decide (r.1 = gid))
    let no_stores := !db.game_stores.any (fun r => decide (r.1 = gid))
    no_about || no_site || no_age || no_cover || no_devs || no_pubs || no_tags ||
      no_series || no_adds || no_genres || no_platforms || no_stores

/-! ### Enrichment controller -/

/-- A fixed upstream snapshot for one item: the outcome of each fetch step.
`.error c` models `raise_for_status` raising on unexpected status `c`;
a not-found/unparseable response is the empty list, as the code coalesces
`None` to `{}` before reading `results`. -/
structure Snapshot where
  details : Except Nat (Option Details)
  shotPages : Except Nat (List ShotsPage)
  movies : Except Nat (List MovieItem)
  series : Except Nat (List NameSlug)
  additions : Except Nat (List NameSlug)
  suggested : Except Nat (List SuggItemRaw)

/-- `upsert_links(conn, gid)`: the series and additions fetches are each
wrapped in `try/except`, so a raising fetch only skips that block. -/
def upsert_links (db : DB) (gid : Int) (snap : Snapshot) : DB :=
  let db1 := match snap.series with
    | .error _ => db
    | .ok res =>
      let rows := linkRowsOf gid res
      if rows ≠ [] then
        { db with game_series_links :=
            insertAll wholeRowConflict db.game_series_links rows }
      else db
  match snap.additions with
  | .error _ => db1
  | .ok res =>
    let rows := linkRowsOf gid res
    if rows ≠ [] then
      { db1 with game_additions_links :=
          insertAll wholeRowConflict db1.game_additions_links rows }
    else db1

/-- The in-place image-URL normalization `enrich_one` applies to the detail
record before the upserts. -/
def normalizeDetails (d : Details) : Details :=
  { d with
    background_image := normalize_rawg_image d.background_image
    background_image_additional := normalize_rawg_image d.background_image_additional
    short_screenshots := d.short_screenshots.map fun s =>
      match s with
      | some ss =>
        match ss.image with
        | some img =>
          if img = [] then some ss else some ⟨some (normalize_rawg_image_str img)⟩
        | none => some ss
      | none => none }

/-- `enrich_one(conn, gid)` against a fixed snapshot; `maxImages` is the
`MAX_IMAGES` soft cap.  An `.error (c, dbAtRaise)` outcome is an uncaught
exception propagating out of the function: only the series/additions/
suggestions steps catch exceptions, the details/screenshots/movies fetches
do not — and every write made before the raise is already committed, so
the error carries the store as of the raise. -/
def enrich_one (maxImages : Nat) (snap : Snapshot) (gid : Int) (db : DB) :
    Except (Nat × DB) (DB × Bool) :=
  match snap.details with
  | .error c => .error (c, db)
  | .ok none => .ok (db, false)
  | .ok (some d0) =>
    let d := normalizeDetails d0
    let db1 := upsert_game_core db d
    let db2 := upsert_lists db1 gid d
    let db3 := upsert_genres_platforms db2 gid d
    let db4 := upsert_store_links db3 gid d
    let db5 := upsert_links db4 gid snap
    match snap.shotPages with
    | .error c => .error (c, db5)
    | .ok pages =>
      let images := (fetch_all_screenshots maxImages pages).1
      let db6 := cover_fallback_from_images db5 gid images
      let db7 := store_media_images db6 gid images
      match snap.movies with
      | .error c => .error (c, db7)
      | .ok movieResults =>
        let db8 := store_media_videos db7 gid (fetch_movies_list movieResults)
        let db9 := match snap.suggested with
          | .error _ => db8
          | .ok res => store_suggestions db8 gid (fetch_suggestions_list res 8)
        .ok (db9, true)

/-- The observable outcome of the per-ID loop in `main`: the final store
and the per-item (id, succeeded) records; `halted` when an uncaught
exception escaped `enrich_one` (the loop has no `try/except`, and every
write so far is already committed). -/
inductive RunResult where
  | completed (db : DB) (results : List (Int × Bool))
  | halted (code : Nat) (db : DB) (results : List (Int × Bool))
deriving DecidableEq

/-- Whether a run halted before processing every id. -/
def RunResult.isHalted : RunResult → Bool
  | .completed _ _ => false
  | .halted _ _ _ => true

/-- The ids the run actually recorded an outcome for. -/
def RunResult.recordedIds : RunResult → List Int
  | .completed _ results => results.map (·.1)
  | .halted _ _ results => results.map (·.1)

/-- The per-ID loop of `main` over a list of ids. -/
def run_ids (maxImages : Nat) (snaps : Int → Snapshot) :
    List Int → DB → List (Int × Bool) → RunResult
  | [], db, acc => .completed db acc
  | gid :: rest, db, acc =>
    match enrich_one maxImages (snaps gid) gid db with
    | .error (c, dbE) => .halted c dbE acc
    | .ok (db2, ok) => run_ids maxImages snaps rest db2 (acc ++ [(gid, ok)])

/-! ### C1: the scalar-field merge rule of `upsert_game_core` -/

theorem findGame_updateGames (t : List GameRow) (gid : Int) (f : GameRow → GameRow)
    (hf : ∀ g, (f g).id = g.id) :
    List.find? (fun g => decide (g.id = gid)) (updateGames t gid f)
      = (List.find? (fun g => decide (g.id = gid)) t).map f := by
  induction t with
  | nil => rfl
  | cons g rest ih =>
    by_cases hg : g.id = gid
    · simp only [updateGames, List.map_cons, if_pos hg]
      rw [List.find?_cons_of_pos _ (by simp [hf, hg]),
        List.find?_cons_of_pos _ (by simp [hg])]
      rfl
    · simp only [updateGames, List.map_cons, if_neg hg]
      rw [List.find?_cons_of_neg _ (by simp [hg]),
        List.find?_cons_of_neg _ (by simp [hg])]
      exact ih

theorem insertOrIgnore_games_noop (t : List GameRow) (r : GameRow)
    (h : ∃ x ∈ t, x.id = r.id) : insertOrIgnore gamesConflict t r = t := by
  rw [insertOrIgnore, if_pos]
  rw [List.any_eq_true]
  obtain ⟨x, hx, hid⟩ := h
  exact ⟨x, hx, by simp [gamesConflict, hid]⟩

def c1Game : GameRow :=
  ⟨1, strOf "g", strOf "g", none, none, none, some (strOf "https://old.example"),
   none, none, none, none⟩

def c1DB : DB := ⟨[c1Game], [], [], [], [], [], [], [], [], [], [], [], [], [], []⟩

def c1Details : Details :=
  ⟨1, none, none, none, none, none, none, some (strOf "https://new.example"),
   none, none, none, [], [], [], [], [], [], []⟩

/-- C1 counterexample: an Item stored with the non-empty website
`https://old.example`, upserted from a detail record carrying the different
non-null website `https://new.example`, does NOT keep its stored value —
the incoming value overwrites it. -/
theorem upsert_overwrites_filled_scalar :
    (findGame c1DB 1).map GameRow.website = some (some (strOf "https://old.example")) ∧
    (findGame (upsert_game_core c1DB c1Details) 1).map GameRow.website
      = some (some (strOf "https://new.example")) ∧
    strOf "https://new.example" ≠ strOf "https://old.example" :=
  ⟨rfl, by decide, by decide⟩

/-- C1 (amended): for an already-stored Item the scalar update is
`COALESCE(incoming, stored)` — a non-null/non-empty incoming value always
overwrites the stored one, and the stored value survives exactly when the
incoming value is null/empty.  (The spec's fill-if-missing direction does
not hold.) -/
theorem upsert_game_core_coalesce (db : DB) (d : Details) (g : GameRow)
    (hfind : findGame db d.id = some g) :
    ∃ g2, findGame (upsert_game_core db d) d.id = some g2 ∧
      g2.website = coalesce (orNoneStr d.website) g.website ∧
      g2.description = coalesce (orNoneStr d.description_raw) g.description ∧
      g2.age_rating
        = coalesce (orNoneStr (d.esrb_rating.getD ⟨none⟩).name) g.age_rating ∧
      g2.cover_image = coalesce (choose_cover_from d) g.cover_image := by
  simp only [findGame] at hfind ⊢
  have hmem : g ∈ db.games := List.mem_of_find?_eq_some hfind
  have hgid : g.id = d.id := by
    have := List.find?_some hfind
    simpa using this
  simp only [upsert_game_core]
  rw [insertOrIgnore_games_noop db.games _ ⟨g, hmem, hgid⟩]
  rw [findGame_updateGames]
  · rw [hfind]
    exact ⟨_, rfl, rfl, rfl, rfl, rfl⟩
  · intro g0
    rfl

/-- Witness for C1's amended theorem at `c1DB`/`c1Details`. -/
theorem upsert_game_core_coalesce_witness :
    findGame c1DB c1Details.id = some c1Game ∧
    ∃ g2, findGame (upsert_game_core c1DB c1Details) c1Details.id = some g2 ∧
      g2.website = coalesce (orNoneStr c1Details.website) c1Game.website ∧
      g2.description
        = coalesce (orNoneStr c1Details.description_raw) c1Game.description ∧
      g2.age_rating
        = coalesce (orNoneStr (c1Details.esrb_rating.getD ⟨none⟩).name)
            c1Game.age_rating ∧
      g2.cover_image = coalesce (choose_cover_from c1Details) c1Game.cover_image :=
  ⟨rfl, upsert_game_core_coalesce c1DB c1Details c1Game rfl⟩

/-! ### C10 and C3: the Completeness Oracle -/

/-- C10: an item id with no `games` row at all is reported as needing
enrichment, whatever the contents of every other table. -/
theorem needs_enrich_unknown_id (db : DB) (gid : Int)
    (h : findGame db gid = none) : needs_enrich db gid = true := by
  simp only [needs_enrich, h]

def c10DB : DB := ⟨[], [], [], [], [], [], [], [], [], [], [], [], [], [], []⟩

/-- Witness for C10 at an empty store and id 7. -/
theorem needs_enrich_unknown_id_witness :
    findGame c10DB 7 = none ∧ needs_enrich c10DB 7 = true :=
  ⟨rfl, needs_enrich_unknown_id c10DB 7 rfl⟩

/-- C3: for a stored item, `needs_enrich` is true exactly when one of the
four scalar fields (description, website, age rating, cover image) is
NULL/empty or one of the eight link tables (developers, publishers, tags,
series links, additions links, genre links, platform links, store links)
has no row for the item. -/
theorem needs_enrich_iff (db : DB) (gid : Int) (g : GameRow)
    (hfind : findGame db gid = some g) :
    (needs_enrich db gid = true ↔
      (g.description.getD [] = [] ∨ g.website.getD [] = [] ∨
       g.age_rating.getD [] = [] ∨ g.cover_image.getD [] = [] ∨
       (∀ r ∈ db.game_developers, r.1 ≠ gid) ∨
       (∀ r ∈ db.game_publishers, r.1 ≠ gid) ∨
       (∀ r ∈ db.game_tags, r.1 ≠ gid) ∨
       (∀ r ∈ db.game_series_links, r.1 ≠ gid) ∨
       (∀ r ∈ db.game_additions_links, r.1 ≠ gid) ∨
       (∀ r ∈ db.game_genres, r.1 ≠ gid) ∨
       (∀ r ∈ db.game_platforms, r.1 ≠ gid) ∨
       (∀ r ∈ db.game_stores, r.1 ≠ gid))) := by
  simp only [needs_enrich, hfind]
  simp only [Bool.or_eq_true, Bool.not_eq_true', List.any_eq_false, decide_eq_true_eq,
    decide_eq_false_iff_not]
  tauto

def c3Row : GameRow :=
  ⟨1, strOf "g", strOf "g", none, none, some (strOf "about"), some (strOf "site"),
   some (strOf "T"), some (strOf "cover"), none, none⟩

/-- A store where item 1 has every scalar and every relation populated
except its tag links. -/
def c3DB : DB :=
  ⟨[c3Row], [(1, strOf "Dev")], [(1, strOf "Pub")], [],
   [(1, strOf "S", strOf "u")], [(1, strOf "A", strOf "u")],
   [(4, strOf "Action")], [(1, 4)], [(4, strOf "PC")], [(1, 4)],
   [⟨1, some (strOf "Steam"), some (strOf "steam"), none⟩], [(1, 1, none)],
   [⟨1, strOf "image", strOf "u", none, some 1⟩], [(1, strOf "u")], []⟩

/-- Witness for C3: an item missing only its tag links is reported as
needing enrichment. -/
theorem needs_enrich_iff_witness :
    findGame c3DB 1 = some c3Row ∧ needs_enrich c3DB 1 = true :=
  ⟨rfl, (needs_enrich_iff c3DB 1 c3Row rfl).mpr (by decide)⟩

/-! ### C9: suggestion storage -/

/-- The REPLACE key of a `game_suggestions` row. -/
def suggKey (r : SuggRow) : Int × Int := (r.game_id, r.position)

theorem replaceInto_filter_ne (t : List SuggRow) (r : SuggRow) (k : Int × Int)
    (hk : suggKey r ≠ k) :
    (replaceInto t r).filter (fun x => decide (suggKey x = k))
      = t.filter (fun x => decide (suggKey x = k)) := by
  rw [replaceInto, List.filter_append]
  have h2 : List.filter (fun x => decide (suggKey x = k)) [r] = [] := by simp [hk]
  rw [h2, List.append_nil]
  set p1 := fun x : SuggRow =>
    !decide (x.game_id = r.game_id ∧ x.position = r.position) with hp1
  set p2 := fun x : SuggRow => decide (suggKey x = k) with hp2
  induction t with
  | nil => rfl
  | cons x xs ih =>
    by_cases hc : x.game_id = r.game_id ∧ x.position = r.position
    · have e1 : ¬p1 x = true := by simp [hp1, hc]
      have e2 : ¬p2 x = true := by
        simp only [hp2, decide_eq_true_eq]
        rw [show suggKey x = suggKey r from by simp [suggKey, hc.1, hc.2]]
        exact hk
      rw [List.filter_cons_of_neg e1, List.filter_cons_of_neg e2, ih]
    · have e1 : p1 x = true := by
        simp only [hp1, Bool.not_eq_true']
        exact decide_eq_false hc
      rw [List.filter_cons_of_pos e1]
      by_cases hx : suggKey x = k
      · have e2 : p2 x = true := by simp [hp2, hx]
        rw [List.filter_cons_of_pos e2, List.filter_cons_of_pos e2, ih]
      · have e2 : ¬p2 x = true := by simp [hp2, hx]
        rw [List.filter_cons_of_neg e2, List.filter_cons_of_neg e2, ih]

theorem replaceInto_filter_self (t : List SuggRow) (r : SuggRow) :
    (replaceInto t r).filter (fun x => decide (suggKey x = suggKey r)) = [r] := by
  rw [replaceInto, List.filter_append]
  set p1 := fun x : SuggRow =>
    !decide (x.game_id = r.game_id ∧ x.position = r.position) with hp1
  set p2 := fun x : SuggRow => decide (suggKey x = suggKey r) with hp2
  have h1 : (t.filter p1).filter p2 = [] := by
    induction t with
    | nil => rfl
    | cons x xs ih =>
      by_cases hc : x.game_id = r.game_id ∧ x.position = r.position
      · have e1 : ¬p1 x = true := by simp [hp1, hc]
        rw [List.filter_cons_of_neg e1, ih]
      · have e1 : p1 x = true := by
          simp only [hp1, Bool.not_eq_true']
          exact decide_eq_false hc
        have e2 : ¬p2 x = true := by
          simp only [hp2, decide_eq_true_eq, suggKey, Prod.mk.injEq]
          exact hc
        rw [List.filter_cons_of_pos e1, List.filter_cons_of_neg e2, ih]
  rw [h1]
  have h2 : p2 r = true := by simp [hp2]
  simp [List.filter_cons_of_pos h2]

/-- Distinct-key hypothesis on a row batch. -/
def rowsKeyNodup (rows : List SuggRow) : Prop :=
  rows.Pairwise (fun a b => suggKey a ≠ suggKey b)

theorem foldl_replaceInto_filter_not_mem (rows : List SuggRow) (k : Int × Int) :
    ∀ t, (∀ r ∈ rows, suggKey r ≠ k) →
      (rows.foldl replaceInto t).filter (fun x => decide (suggKey x = k))
        = t.filter (fun x => decide (suggKey x = k)) := by
  induction rows with
  | nil => intro t _; rfl
  | cons a rows ih =>
    intro t h
    rw [List.foldl_cons, ih _ (fun r hr => h r (List.mem_cons_of_mem a hr)),
      replaceInto_filter_ne t a k (h a (List.mem_cons_self a rows))]

theorem foldl_replaceInto_filter_mem (rows : List SuggRow)
    (hnd : rowsKeyNodup rows) :
    ∀ t, ∀ r ∈ rows,
      (rows.foldl replaceInto t).filter (fun x => decide (suggKey x = suggKey r))
        = [r] := by
  induction rows with
  | nil => intro t r hr; simp at hr
  | cons a rows ih =>
    intro t r hr
    rw [List.foldl_cons]
    rcases List.mem_cons.mp hr with hra | hrm
    · subst hra
      have hnex : ∀ r2 ∈ rows, suggKey r2 ≠ suggKey r :=
        fun r2 h2 => Ne.symm ((List.pairwise_cons.mp hnd).1 r2 h2)
      rw [foldl_replaceInto_filter_not_mem rows (suggKey r) (replaceInto t r) hnex]
      exact replaceInto_filter_self t r
    · exact ih (List.pairwise_cons.mp hnd).2 _ r hrm

theorem mem_replaceInto (t : List SuggRow) (r x : SuggRow) (hx : x ∈ t)
    (hne : suggKey x ≠ suggKey r) : x ∈ replaceInto t r := by
  rw [replaceInto]
  apply List.mem_append_left
  rw [List.mem_filter]
  refine ⟨hx, ?_⟩
  simp only [Bool.not_eq_true', decide_eq_false_iff_not]
  intro hc
  exact hne (by simp [suggKey, hc.1, hc.2])

theorem mem_foldl_replaceInto (rows : List SuggRow) :
    ∀ t, ∀ x ∈ t, (∀ r ∈ rows, suggKey x ≠ suggKey r) →
      x ∈ rows.foldl replaceInto t := by
  induction rows with
  | nil => intro t x hx _; exact hx
  | cons a rows ih =>
    intro t x hx h
    rw [List.foldl_cons]
    exact ih _ x (mem_replaceInto t a x hx (h a (List.mem_cons_self a rows)))
      (fun r hr => h r (List.mem_cons_of_mem a hr))

theorem suggRows_game_id_position (gid : Int) :
    ∀ (l : List SuggFetched) (pos : Int), ∀ r ∈ suggRows gid l pos,
      r.game_id = gid ∧ pos ≤ r.position := by
  intro l
  induction l with
  | nil => intro pos r hr; simp [suggRows] at hr
  | cons s rest ih =>
    intro pos r hr
    rw [suggRows] at hr
    rcases List.mem_cons.mp hr with h | h
    · subst h
      exact ⟨rfl, le_refl pos⟩
    · obtain ⟨h1, h2⟩ := ih (pos + 1) r h
      exact ⟨h1, by omega⟩

theorem suggRows_keyNodup (gid : Int) :
    ∀ (l : List SuggFetched) (pos : Int), rowsKeyNodup (suggRows gid l pos) := by
  intro l
  induction l with
  | nil => intro pos; rw [suggRows]; exact List.Pairwise.nil
  | cons s rest ih =>
    intro pos
    rw [suggRows, rowsKeyNodup, List.pairwise_cons]
    constructor
    · intro r hr
      obtain ⟨_, hpos⟩ := suggRows_game_id_position gid rest (pos + 1) r hr
      simp only [suggKey, Prod.mk.injEq, ne_eq, not_and]
      intro _
      omega
    · exact ih (pos + 1)

def c9s1 : SuggFetched := ⟨some 10, some (strOf "S1"), none, none, none, [], []⟩

def c9s2 : SuggFetched := ⟨some 11, some (strOf "S2"), none, none, none, [], []⟩

def c9s3 : SuggFetched := ⟨some 12, some (strOf "S3"), none, none, none, [], []⟩

def c9DB : DB := ⟨[], [], [], [], [], [], [], [], [], [], [], [], [], [], []⟩

/-- C9 counterexample: store 2 ranked candidates for item 1, then re-run
the store with a fresh 1-candidate list.  The stored rows are NOT exactly
the latest snapshot (which has one row): two rows remain, and the stale
position-2 row still carries the earlier run's candidate S2. -/
theorem store_suggestions_stale_rank :
    (store_suggestions (store_suggestions c9DB 1 [c9s1, c9s2]) 1
        [c9s3]).game_suggestions.length = 2 ∧
    (suggRows 1 [c9s3] 1).length = 1 ∧
    ((store_suggestions (store_suggestions c9DB 1 [c9s1, c9s2]) 1
        [c9s3]).game_suggestions.filter
          (fun r => decide (r.position = 2))).map SuggRow.name
      = [some (strOf "S2")] :=
  ⟨rfl, rfl, by decide⟩

/-- C9 (amended): re-running the suggestion store with a fresh non-empty
list of up to 8 ranked candidates fully replaces the row at each fetched
candidate's (item_id, position) key — afterwards the rows at those keys
are exactly the fresh candidates — but rows at other keys, including
stale higher ranks left over from earlier longer runs, remain stored. -/
theorem store_suggestions_replaces_positions (db : DB) (gid : Int)
    (l : List SuggFetched) (hne : l ≠ []) :
    (∀ r ∈ suggRows gid (l.take 8) 1,
        (store_suggestions db gid l).game_suggestions.filter
          (fun x => decide (suggKey x = suggKey r)) = [r]) ∧
    (∀ x ∈ db.game_suggestions,
        (∀ r ∈ suggRows gid (l.take 8) 1, suggKey x ≠ suggKey r) →
        x ∈ (store_suggestions db gid l).game_suggestions) := by
  rw [store_suggestions, if_neg hne]
  constructor
  · intro r hr
    exact foldl_replaceInto_filter_mem _ (suggRows_keyNodup gid _ 1)
      db.game_suggestions r hr
  · intro x hx h
    exact mem_foldl_replaceInto _ db.game_suggestions x hx h

/-- Witness for C9's amended theorem: the re-run over the stale two-row
state with a fresh singleton list. -/
theorem store_suggestions_replaces_positions_witness :
    (∀ r ∈ suggRows 1 ([c9s3].take 8) 1,
        (store_suggestions (store_suggestions c9DB 1 [c9s1, c9s2]) 1
            [c9s3]).game_suggestions.filter
          (fun x => decide (suggKey x = suggKey r)) = [r]) ∧
    (∀ x ∈ (store_suggestions c9DB 1 [c9s1, c9s2]).game_suggestions,
        (∀ r ∈ suggRows 1 ([c9s3].take 8) 1, suggKey x ≠ suggKey r) →
        x ∈ (store_suggestions (store_suggestions c9DB 1 [c9s1, c9s2]) 1
            [c9s3]).game_suggestions) :=
  store_suggestions_replaces_positions
    (store_suggestions c9DB 1 [c9s1, c9s2]) 1 [c9s3] (by simp)

/-! ### C8: unexpected statuses and the run loop -/

def c8Details : Details :=
  ⟨1, some (strOf "g"), some (strOf "G"), none, none, none, some (strOf "d"),
   none, none, none, none, [], [], [], [], [], [], []⟩

def c8SnapOk : Snapshot :=
  ⟨.ok (some c8Details), .ok [], .ok [], .ok [], .ok [], .ok []⟩

def c8SnapBad : Snapshot := ⟨.error 403, .ok [], .ok [], .ok [], .ok [], .ok []⟩

def c8Snaps : Int → Snapshot := fun gid => if gid = 2 then c8SnapBad else c8SnapOk

def c8DB : DB := ⟨[], [], [], [], [], [], [], [], [], [], [], [], [], [], []⟩

/-- C8 counterexample: item 2's detail fetch hits an unexpected status
(403), which `raise_for_status` turns into an uncaught exception.  The run
over [1, 2, 3] halts there: item 1 is recorded but item 3 is never
processed — the failure is not contained to item 2's fetch step. -/
theorem run_ids_halts_on_unexpected_status :
    (run_ids 50 c8Snaps [1, 2, 3] c8DB []).isHalted = true ∧
    (run_ids 50 c8Snaps [1, 2, 3] c8DB []).recordedIds = [1] :=
  ⟨rfl, rfl⟩

/-- C8 (amended): an unexpected non-2xx status during the DETAILS fetch is
caught nowhere: `enrich_one` raises, the whole run halts at that item with
later ids unprocessed, retaining exactly the writes committed before the
raise (none for that item).  By contrast, an unexpected status in the
suggestions step is caught and aborts only that step — the item still
completes successfully. -/
theorem run_unexpected_status_behavior (maxI : Nat) (snaps : Int → Snapshot)
    (db : DB) (gid : Int) (rest : List Int) (acc : List (Int × Bool)) (c : Nat)
    (hbad : (snaps gid).details = .error c) :
    run_ids maxI snaps (gid :: rest) db acc = .halted c db acc ∧
    ∀ snap : Snapshot, ∀ d : Details, ∀ pages : List ShotsPage,
      ∀ movies : List MovieItem, ∀ c2 : Nat,
      snap.details = .ok (some d) → snap.shotPages = .ok pages →
      snap.movies = .ok movies → snap.suggested = .error c2 →
      ∃ db2, enrich_one maxI snap gid db = .ok (db2, true) := by
  have he : enrich_one maxI (snaps gid) gid db = .error (c, db) := by
    simp only [enrich_one, hbad]
  constructor
  · simp only [run_ids, he]
  · intro snap d pages movies c2 hd hp hm hs
    cases hres : enrich_one maxI snap gid db with
    | error e =>
      have hres2 := hres
      simp only [enrich_one, hd, hp, hm, hs] at hres2
      exact absurd hres2 (by simp)
    | ok p =>
      have hres2 := hres
      simp only [enrich_one, hd, hp, hm, hs] at hres2
      exact ⟨_, hres2.symm⟩

def c8SnapSugBad : Snapshot :=
  ⟨.ok (some c8Details), .ok [], .ok [], .ok [], .ok [], .error 500⟩

/-- Witness for C8's amended theorem at concrete snapshots. -/
theorem run_unexpected_status_behavior_witness :
    run_ids 50 c8Snaps [2, 3] c8DB [] = .halted 403 c8DB [] ∧
    ∃ db2, enrich_one 50 c8SnapSugBad 2 c8DB = .ok (db2, true) := by
  have h := run_unexpected_status_behavior 50 c8Snaps c8DB 2 [3] [] 403 rfl
  exact ⟨h.1, h.2 c8SnapSugBad c8Details [] [] 500 rfl rfl rfl rfl⟩

/-! ### C2: idempotence of a full enrichment pass — insert lemmas -/

theorem insertAll_cons {R : Type} (conflict : R → R → Bool) (t : List R)
    (a : R) (rows : List R) :
    insertAll conflict t (a :: rows)
      = insertAll conflict (insertOrIgnore conflict t a) rows := rfl

theorem insertOrIgnore_any_mono {R : Type} (conflict : R → R → Bool) (t : List R)
    (r x : R) (h : t.any (fun y => conflict y x) = true) :
    (insertOrIgnore conflict t r).any (fun y => conflict y x) = true := by
  rw [insertOrIgnore]
  split
  · exact h
  · rw [List.any_append]
    simp [h]

theorem insertOrIgnore_any_self {R : Type} (conflict : R → R → Bool) (t : List R)
    (r : R) (hrr : conflict r r = true) :
    (insertOrIgnore conflict t r).any (fun y => conflict y r) = true := by
  rw [insertOrIgnore]
  split
  · assumption
  · rw [List.any_append]
    simp [hrr]

theorem insertOrIgnore_noop {R : Type} (conflict : R → R → Bool) (t : List R)
    (r : R) (h : t.any (fun y => conflict y r) = true) :
    insertOrIgnore conflict t r = t := by
  rw [insertOrIgnore, if_pos h]

theorem insertAll_any_mono {R : Type} (conflict : R → R → Bool) (rows : List R) :
    ∀ t x, t.any (fun y => conflict y x) = true →
      (insertAll conflict t rows).any (fun y => conflict y x) = true := by
  induction rows with
  | nil => intro t x h; exact h
  | cons a rows ih =>
    intro t x h
    rw [insertAll_cons]
    exact ih _ x (insertOrIgnore_any_mono conflict t a x h)

theorem insertAll_any_present {R : Type} (conflict : R → R → Bool) (rows : List R)
    (hrr : ∀ r ∈ rows, conflict r r = true) :
    ∀ t, ∀ r ∈ rows, (insertAll conflict t rows).any (fun y => conflict y r) = true := by
  induction rows with
  | nil => intro t r hr; simp at hr
  | cons a rows ih =>
    intro t r hr
    rw [insertAll_cons]
    rcases List.mem_cons.mp hr with h | h
    · subst h
      exact insertAll_any_mono conflict rows _ r
        (insertOrIgnore_any_self conflict t r (hrr r hr))
    · exact ih (fun x hx => hrr x (List.mem_cons_of_mem a hx)) _ r h

theorem insertAll_noop {R : Type} (conflict : R → R → Bool) (rows : List R) :
    ∀ t, (∀ r ∈ rows, t.any (fun y => conflict y r) = true) →
      insertAll conflict t rows = t := by
  induction rows with
  | nil => intro t _; rfl
  | cons a rows ih =>
    intro t h
    rw [insertAll_cons,
      insertOrIgnore_noop conflict t a (h a (List.mem_cons_self a rows))]
    exact ih t (fun r hr => h r (List.mem_cons_of_mem a hr))

theorem insertAll_idem {R : Type} (conflict : R → R → Bool) (t : List R)
    (rows : List R) (hrr : ∀ r ∈ rows, conflict r r = true) :
    insertAll conflict (insertAll conflict t rows) rows
      = insertAll conflict t rows :=
  insertAll_noop conflict rows _
    (fun r hr => insertAll_any_present conflict rows hrr t r hr)

theorem insertAll_idem2 {R : Type} (conflict : R → R → Bool) (t : List R)
    (rows1 rows2 : List R) (h1 : ∀ r ∈ rows1, conflict r r = true)
    (h2 : ∀ r ∈ rows2, conflict r r = true) :
    insertAll conflict
        (insertAll conflict (insertAll conflict (insertAll conflict t rows1) rows2)
          rows1) rows2
      = insertAll conflict (insertAll conflict t rows1) rows2 := by
  have hpres1 : ∀ r ∈ rows1,
      (insertAll conflict (insertAll conflict t rows1) rows2).any
        (fun y => conflict y r) = true :=
    fun r hr => insertAll_any_mono conflict rows2 _ r
      (insertAll_any_present conflict rows1 h1 t r hr)
  rw [insertAll_noop conflict rows1 _ hpres1]
  exact insertAll_idem conflict (insertAll conflict t rows1) rows2 h2

theorem wholeRowConflict_self {R : Type} [DecidableEq R] (r : R) :
    wholeRowConflict r r = true := by simp [wholeRowConflict]

theorem vocabConflict_self (r : Int × Str) : vocabConflict r r = true := by
  simp [vocabConflict]

theorem storesConflict_self (r : StoreRow) : storesConflict r r = true := by
  simp [storesConflict]

theorem gameStoresConflict_self (r : Int × Int × Option Str) :
    gameStoresConflict r r = true := by simp [gameStoresConflict]

theorem mediaConflict_self (r : MediaRow) : mediaConflict r r = true := by
  simp [mediaConflict]

/-! ### C2: row batches of each upsert, as functions of the snapshot -/

def devRows (gid : Int) (d : Details) : List (Int × Str) :=
  (namesOf d.developers).map (fun n => (gid, pyStrip n))

def pubRows (gid : Int) (d : Details) : List (Int × Str) :=
  (namesOf d.publishers).map (fun n => (gid, pyStrip n))

def tagRows (gid : Int) (d : Details) : List (Int × Str) :=
  (namesOf d.tags).map (fun n => (gid, pyStrip n))

def genreVocabRows (l : List IdName) : List (Int × Str) :=
  l.filterMap fun g =>
    match g.id, g.name with
    | some gidRaw, some gname =>
      if gidRaw ≠ 0 ∧ gname ≠ [] then some (gidRaw, pyStrip gname) else none
    | _, _ => none

def genreLinkRows (gid : Int) (l : List IdName) : List (Int × Int) :=
  l.filterMap fun g =>
    match g.id, g.name with
    | some gidRaw, some gname =>
      if gidRaw ≠ 0 ∧ gname ≠ [] then some (gid, gidRaw) else none
    | _, _ => none

def platVocabRows (l : List PlatEntry) : List (Int × Str) :=
  l.filterMap fun p =>
    match (p.platform.getD ⟨none, none⟩).id, (p.platform.getD ⟨none, none⟩).name with
    | some pidRaw, some pname =>
      if pidRaw ≠ 0 ∧ pname ≠ [] then some (pidRaw, pyStrip pname) else none
    | _, _ => none

def platLinkRows (gid : Int) (l : List PlatEntry) : List (Int × Int) :=
  l.filterMap fun p =>
    match (p.platform.getD ⟨none, none⟩).id, (p.platform.getD ⟨none, none⟩).name with
    | some pidRaw, some pname =>
      if pidRaw ≠ 0 ∧ pname ≠ [] then some (gid, pidRaw) else none
    | _, _ => none

def storeVocabRows (l : List StoreEntry) : List StoreRow :=
  l.filterMap fun s =>
    match pyOrInt (s.store.getD ⟨none, none, none, none⟩).id s.id with
    | some n =>
      if n ≠ 0 then
        some ⟨n, orNoneStr (s.store.getD ⟨none, none, none, none⟩).name,
          orNoneStr (s.store.getD ⟨none, none, none, none⟩).slug,
          orNoneStr (s.store.getD ⟨none, none, none, none⟩).domain⟩
      else none
    | none => none

def storeLinkRows (gid : Int) (l : List StoreEntry) :
    List (Int × Int × Option Str) :=
  l.filterMap fun s =>
    match pyOrInt (s.store.getD ⟨none, none, none, none⟩).id s.id with
    | some n => if n ≠ 0 then some (gid, n, orNoneStr s.url) else none
    | none => none

def seriesRowsOf (gid : Int) (snap : Snapshot) : List (Int × Str × Str) :=
  match snap.series with
  | .error _ => []
  | .ok res => linkRowsOf gid res

def additionsRowsOf (gid : Int) (snap : Snapshot) : List (Int × Str × Str) :=
  match snap.additions with
  | .error _ => []
  | .ok res => linkRowsOf gid res

/-! ### C2: record-form equations for each pipeline op -/

theorem upsert_game_core_eq (db : DB) (d : Details) :
    upsert_game_core db d
      = { db with games := (upsert_game_core db d).games } := rfl

theorem cover_fallback_eq (db : DB) (gid : Int) (images : List Screenshot) :
    cover_fallback_from_images db gid images
      = { db with games := (cover_fallback_from_images db gid images).games } := by
  unfold cover_fallback_from_images
  repeat' split
  all_goals rfl

theorem upsert_lists_eq (db : DB) (gid : Int) (d : Details) :
    upsert_lists db gid d =
      { db with
        game_developers :=
          insertAll wholeRowConflict db.game_developers (devRows gid d)
        game_publishers :=
          insertAll wholeRowConflict db.game_publishers (pubRows gid d)
        game_tags := insertAll wholeRowConflict db.game_tags (tagRows gid d) } := by
  unfold upsert_lists devRows pubRows tagRows
  by_cases h1 : namesOf d.developers = [] <;>
    by_cases h2 : namesOf d.publishers = [] <;>
      by_cases h3 : namesOf d.tags = [] <;>
        simp [h1, h2, h3, insertAll]

theorem upsert_links_eq (db : DB) (gid : Int) (snap : Snapshot) :
    upsert_links db gid snap =
      { db with
        game_series_links :=
          insertAll wholeRowConflict db.game_series_links (seriesRowsOf gid snap)
        game_additions_links :=
          insertAll wholeRowConflict db.game_additions_links
            (additionsRowsOf gid snap) } := by
  unfold upsert_links seriesRowsOf additionsRowsOf
  rcases snap.series with c | res <;> rcases snap.additions with c2 | res2
  · simp [insertAll]
  · by_cases h2 : linkRowsOf gid res2 = [] <;> simp [h2, insertAll]
  · by_cases h1 : linkRowsOf gid res = [] <;> simp [h1, insertAll]
  · by_cases h1 : linkRowsOf gid res = [] <;>
      by_cases h2 : linkRowsOf gid res2 = [] <;> simp [h1, h2, insertAll]

theorem store_media_videos_eq (db : DB) (gid : Int) (videos : List Movie) :
    store_media_videos db gid videos =
      { db with
        media := insertAll mediaConflict db.media (mediaVideoRows gid videos 1) } := by
  unfold store_media_videos
  by_cases hv : videos = []
  · subst hv
    simp [mediaVideoRows, insertAll]
  · rw [if_neg hv]
    by_cases hr : mediaVideoRows gid videos 1 = [] <;> simp [hr, insertAll]

theorem store_suggestions_eq (db : DB) (gid : Int) (l : List SuggFetched) :
    store_suggestions db gid l =
      { db with game_suggestions :=
          (suggRows gid (l.take 8) 1).foldl replaceInto db.game_suggestions } := by
  unfold store_suggestions
  by_cases hl : l = []
  · subst hl
    simp [suggRows]
  · rw [if_neg hl]

theorem store_media_images_eq (db : DB) (gid : Int) (images : List Screenshot) :
    store_media_images db gid images =
      { db with
        media := insertAll mediaConflict db.media (mediaImageRows gid images 1).1
        screenshots :=
          if db.screenshots.any (fun r => decide (r.1 = gid)) = false ∧
              (mediaImageRows gid images 1).2 ≠ [] then
            db.screenshots ++ (mediaImageRows gid images 1).2
          else db.screenshots } := by
  unfold store_media_images
  by_cases him : images = []
  · subst him
    simp [mediaImageRows, insertAll]
  · rw [if_neg him]
    simp only [ne_eq]
    by_cases hr1 : (mediaImageRows gid images 1).1 = []
    · rw [if_neg (not_not_intro hr1)]
      by_cases hguard : (db.screenshots.any fun r => decide (r.1 = gid)) = false ∧
          ¬(mediaImageRows gid images 1).2 = []
      · simp [hguard, hr1, insertAll]
      · rw [if_neg hguard, if_neg hguard]
        simp [hr1, insertAll]
    · rw [if_pos hr1]
      by_cases hguard : (db.screenshots.any fun r => decide (r.1 = gid)) = false ∧
          ¬(mediaImageRows gid images 1).2 = []
      · simp [hguard]
      · rw [if_neg hguard, if_neg hguard]

theorem genres_foldl_eq (gid : Int) (l : List IdName) : ∀ db : DB,
    l.foldl (genreStep gid) db =
      { db with
        genres := insertAll vocabConflict db.genres (genreVocabRows l)
        game_genres :=
          insertAll wholeRowConflict db.game_genres (genreLinkRows gid l) } := by
  induction l with
  | nil =>
    intro db
    simp [genreVocabRows, genreLinkRows, insertAll]
  | cons g rest ih =>
    intro db
    rw [List.foldl_cons, ih]
    rcases hgi : g.id with _ | gidRaw
    · simp [genreStep, genreVocabRows, genreLinkRows, List.filterMap_cons, hgi]
    · rcases hgn : g.name with _ | gname
      · simp [genreStep, genreVocabRows, genreLinkRows, List.filterMap_cons, hgi, hgn]
      · by_cases hc : gidRaw ≠ 0 ∧ gname ≠ []
        · simp [genreStep, genreVocabRows, genreLinkRows, List.filterMap_cons,
            hgi, hgn, hc, insertAll_cons]
        · simp [genreStep, genreVocabRows, genreLinkRows, List.filterMap_cons,
            hgi, hgn, hc]

theorem platforms_foldl_eq (gid : Int) (l : List PlatEntry) : ∀ db : DB,
    l.foldl (platformStep gid) db =
      { db with
        platforms := insertAll vocabConflict db.platforms (platVocabRows l)
        game_platforms :=
          insertAll wholeRowConflict db.game_platforms (platLinkRows gid l) } := by
  induction l with
  | nil =>
    intro db
    simp [platVocabRows, platLinkRows, insertAll]
  | cons p rest ih =>
    intro db
    rw [List.foldl_cons, ih]
    rcases hpi : (p.platform.getD ⟨none, none⟩).id with _ | pidRaw
    · simp [platformStep, platVocabRows, platLinkRows, List.filterMap_cons, hpi]
    · rcases hpn : (p.platform.getD ⟨none, none⟩).name with _ | pname
      · simp [platformStep, platVocabRows, platLinkRows, List.filterMap_cons,
          hpi, hpn]
      · by_cases hc : pidRaw ≠ 0 ∧ pname ≠ []
        · simp [platformStep, platVocabRows, platLinkRows, List.filterMap_cons,
            hpi, hpn, hc, insertAll_cons]
        · simp [platformStep, platVocabRows, platLinkRows, List.filterMap_cons,
            hpi, hpn, hc]

theorem stores_foldl_eq (gid : Int) (l : List StoreEntry) :
    ∀ (db : DB) (acc : List (Int × Int × Option Str)),
    l.foldl (storeStep gid) (db, acc) =
      ({ db with stores := insertAll storesConflict db.stores (storeVocabRows l) },
       acc ++ storeLinkRows gid l) := by
  induction l with
  | nil =>
    intro db acc
    simp [storeVocabRows, storeLinkRows, insertAll]
  | cons s rest ih =>
    intro db acc
    rw [List.foldl_cons]
    rcases hsid : pyOrInt (s.store.getD ⟨none, none, none, none⟩).id s.id
      with _ | n
    · have hstep : storeStep gid (db, acc) s = (db, acc) := by
        simp [storeStep, hsid]
      rw [hstep, ih]
      simp [storeVocabRows, storeLinkRows, List.filterMap_cons, hsid]
    · by_cases hn : n ≠ 0
      · have hstep : storeStep gid (db, acc) s =
            ({ db with stores :=
                         insertOrIgnore storesConflict db.stores
                           ⟨n, orNoneStr (s.store.getD ⟨none, none, none, none⟩).name,
                            orNoneStr (s.store.getD ⟨none, none, none, none⟩).slug,
                            orNoneStr (s.store.getD ⟨none, none, none, none⟩).domain⟩ },
             acc ++ [(gid, n, orNoneStr s.url)]) := by
          simp [storeStep, hsid, hn]
        rw [hstep, ih]
        simp [storeVocabRows, storeLinkRows, List.filterMap_cons, hsid, hn,
          insertAll_cons]
      · have hstep : storeStep gid (db, acc) s = (db, acc) := by
          simp [storeStep, hsid, hn]
        rw [hstep, ih]
        simp [storeVocabRows, storeLinkRows, List.filterMap_cons, hsid, hn]

theorem upsert_genres_platforms_eq (db : DB) (gid : Int) (d : Details) :
    upsert_genres_platforms db gid d =
      { db with
        genres := insertAll vocabConflict db.genres (genreVocabRows d.genres)
        game_genres :=
          insertAll wholeRowConflict db.game_genres (genreLinkRows gid d.genres)
        platforms := insertAll vocabConflict db.platforms (platVocabRows d.platforms)
        game_platforms :=
          insertAll wholeRowConflict db.game_platforms
            (platLinkRows gid d.platforms) } := by
  unfold upsert_genres_platforms
  rw [genres_foldl_eq, platforms_foldl_eq]

theorem upsert_store_links_eq (db : DB) (gid : Int) (d : Details) :
    upsert_store_links db gid d =
      { db with
        stores := insertAll storesConflict db.stores (storeVocabRows d.stores)
        game_stores :=
          insertAll gameStoresConflict db.game_stores
            (storeLinkRows gid d.stores) } := by
  unfold upsert_store_links
  rw [stores_foldl_eq]
  by_cases h : storeLinkRows gid d.stores = [] <;> simp [h, insertAll]

/-! ### C2: length preservation for REPLACE batches -/

theorem replaceInto_keyNodup (t : List SuggRow) (r : SuggRow)
    (hnd : rowsKeyNodup t) : rowsKeyNodup (replaceInto t r) := by
  rw [replaceInto, rowsKeyNodup, List.pairwise_append]
  refine ⟨hnd.sublist (List.filter_sublist t), List.pairwise_singleton _ _, ?_⟩
  intro a ha b hb
  rw [List.mem_singleton] at hb
  subst hb
  rw [List.mem_filter] at ha
  intro hkey
  have hpair : a.game_id = b.game_id ∧ a.position = b.position := by
    have := hkey
    simp only [suggKey, Prod.mk.injEq] at this
    exact this
  have := ha.2
  simp only [Bool.not_eq_true', decide_eq_false_iff_not] at this
  exact this hpair

theorem replaceInto_keyMem (t : List SuggRow) (r : SuggRow) (k : Int × Int)
    (h : ∃ x ∈ t, suggKey x = k) : ∃ x ∈ replaceInto t r, suggKey x = k := by
  by_cases hk : suggKey r = k
  · refine ⟨r, ?_, hk⟩
    rw [replaceInto]
    exact List.mem_append_right _ (List.mem_singleton_self r)
  · obtain ⟨x, hx, hxk⟩ := h
    refine ⟨x, ?_, hxk⟩
    exact mem_replaceInto t r x hx (fun he => hk (he ▸ hxk))

theorem filter_replace_length (r : SuggRow) : ∀ t : List SuggRow,
    rowsKeyNodup t → (∃ x ∈ t, suggKey x = suggKey r) →
    (t.filter
        (fun x => !decide (x.game_id = r.game_id ∧ x.position = r.position))).length
        + 1
      = t.length := by
  set p1 := fun x : SuggRow =>
    !decide (x.game_id = r.game_id ∧ x.position = r.position) with hp1
  intro t
  induction t with
  | nil => intro _ hmem; simp at hmem
  | cons x xs ih =>
    intro hnd hmem
    by_cases hc : x.game_id = r.game_id ∧ x.position = r.position
    · have e1 : ¬p1 x = true := by simp [hp1, hc]
      rw [List.filter_cons_of_neg e1]
      have hall : xs.filter p1 = xs := by
        rw [List.filter_eq_self]
        intro y hy
        have hxy : suggKey x ≠ suggKey y := (List.pairwise_cons.mp hnd).1 y hy
        simp only [hp1, Bool.not_eq_true', decide_eq_false_iff_not]
        intro hpair
        exact hxy (by simp [suggKey, hc.1, hc.2, hpair.1, hpair.2])
      rw [hall]
      simp
    · have e1 : p1 x = true := by
        simp only [hp1, Bool.not_eq_true']
        exact decide_eq_false hc
      rw [List.filter_cons_of_pos e1]
      obtain ⟨y, hy, hyk⟩ := hmem
      rcases List.mem_cons.mp hy with hyx | hyxs
      · exfalso
        subst hyx
        apply hc
        have := hyk
        simp only [suggKey, Prod.mk.injEq] at this
        exact this
      · have := ih (List.pairwise_cons.mp hnd).2 ⟨y, hyxs, hyk⟩
        simp only [List.length_cons]
        omega

theorem replaceInto_length (t : List SuggRow) (r : SuggRow)
    (hnd : rowsKeyNodup t) (hmem : ∃ x ∈ t, suggKey x = suggKey r) :
    (replaceInto t r).length = t.length := by
  rw [replaceInto, List.length_append]
  have := filter_replace_length r t hnd hmem
  simp only [List.length_singleton]
  omega

theorem foldl_replaceInto_keyNodup (rows : List SuggRow) :
    ∀ t, rowsKeyNodup t → rowsKeyNodup (rows.foldl replaceInto t) := by
  induction rows with
  | nil => intro t h; exact h
  | cons a rows ih =>
    intro t h
    rw [List.foldl_cons]
    exact ih _ (replaceInto_keyNodup t a h)

theorem foldl_replaceInto_keyMem (rows : List SuggRow) (k : Int × Int) :
    ∀ t, (∃ x ∈ t, suggKey x = k) →
      ∃ x ∈ rows.foldl replaceInto t, suggKey x = k := by
  induction rows with
  | nil => intro t h; exact h
  | cons a rows ih =>
    intro t h
    rw [List.foldl_cons]
    exact ih _ (replaceInto_keyMem t a k h)

theorem foldl_replaceInto_keyPresent (rows : List SuggRow) :
    ∀ t, ∀ r ∈ rows, ∃ x ∈ rows.foldl replaceInto t, suggKey x = suggKey r := by
  induction rows with
  | nil => intro t r hr; simp at hr
  | cons a rows ih =>
    intro t r hr
    rw [List.foldl_cons]
    rcases List.mem_cons.mp hr with h | h
    · subst h
      apply foldl_replaceInto_keyMem rows (suggKey r) _
      refine ⟨r, ?_, rfl⟩
      rw [replaceInto]
      exact List.mem_append_right _ (List.mem_singleton_self r)
    · exact ih _ r h

theorem foldl_replaceInto_length (rows : List SuggRow) :
    ∀ t, rowsKeyNodup t → (∀ r ∈ rows, ∃ x ∈ t, suggKey x = suggKey r) →
      (rows.foldl replaceInto t).length = t.length := by
  induction rows with
  | nil => intro t _ _; rfl
  | cons a rows ih =>
    intro t hnd hmem
    rw [List.foldl_cons]
    rw [ih _ (replaceInto_keyNodup t a hnd)
      (fun r hr => replaceInto_keyMem t a _ (hmem r (List.mem_cons_of_mem a hr)))]
    exact replaceInto_length t a hnd (hmem a (List.mem_cons_self a rows))

theorem mediaImageRows_legacy_gid (gid : Int) :
    ∀ (images : List Screenshot) (pos : Nat),
      ∀ x ∈ (mediaImageRows gid images pos).2, x.1 = gid := by
  intro images
  induction images with
  | nil => intro pos x hx; simp [mediaImageRows] at hx
  | cons item rest ih =>
    intro pos x hx
    rw [mediaImageRows] at hx
    by_cases hi : item.image = []
    · rw [if_pos hi] at hx
      exact ih pos x hx
    · rw [if_neg hi] at hx
      by_cases hp : pos ≤ 40
      · simp only [if_pos hp, List.mem_cons] at hx
        rcases hx with hx | hx
        · rw [hx]
        · exact ih (pos + 1) x hx
      · simp only [if_neg hp] at hx
        exact ih (pos + 1) x hx

/-! ### C2: projections through the two games-only ops -/

theorem core_devs (db : DB) (d : Details) :
    (upsert_game_core db d).game_developers = db.game_developers := rfl

theorem core_pubs (db : DB) (d : Details) :
    (upsert_game_core db d).game_publishers = db.game_publishers := rfl

theorem core_tags (db : DB) (d : Details) :
    (upsert_game_core db d).game_tags = db.game_tags := rfl

theorem core_series (db : DB) (d : Details) :
    (upsert_game_core db d).game_series_links = db.game_series_links := rfl

theorem core_adds (db : DB) (d : Details) :
    (upsert_game_core db d).game_additions_links = db.game_additions_links := rfl

theorem core_genres (db : DB) (d : Details) :
    (upsert_game_core db d).game_genres = db.game_genres := rfl

theorem core_platforms (db : DB) (d : Details) :
    (upsert_game_core db d).game_platforms = db.game_platforms := rfl

theorem core_stores (db : DB) (d : Details) :
    (upsert_game_core db d).game_stores = db.game_stores := rfl

theorem core_media (db : DB) (d : Details) :
    (upsert_game_core db d).media = db.media := rfl

theorem core_screens (db : DB) (d : Details) :
    (upsert_game_core db d).screenshots = db.screenshots := rfl

theorem core_suggs (db : DB) (d : Details) :
    (upsert_game_core db d).game_suggestions = db.game_suggestions := rfl

theorem cover_devs (db : DB) (gid : Int) (images : List Screenshot) :
    (cover_fallback_from_images db gid images).game_developers
      = db.game_developers := by
  unfold cover_fallback_from_images
  repeat' split
  all_goals rfl

theorem cover_pubs (db : DB) (gid : Int) (images : List Screenshot) :
    (cover_fallback_from_images db gid images).game_publishers
      = db.game_publishers := by
  unfold cover_fallback_from_images
  repeat' split
  all_goals rfl

theorem cover_tags (db : DB) (gid : Int) (images : List Screenshot) :
    (cover_fallback_from_images db gid images).game_tags = db.game_tags := by
  unfold cover_fallback_from_images
  repeat' split
  all_goals rfl

theorem cover_series (db : DB) (gid : Int) (images : List Screenshot) :
    (cover_fallback_from_images db gid images).game_series_links
      = db.game_series_links := by
  unfold cover_fallback_from_images
  repeat' split
  all_goals rfl

theorem cover_adds (db : DB) (gid : Int) (images : List Screenshot) :
    (cover_fallback_from_images db gid images).game_additions_links
      = db.game_additions_links := by
  unfold cover_fallback_from_images
  repeat' split
  all_goals rfl

theorem cover_genres (db : DB) (gid : Int) (images : List Screenshot) :
    (cover_fallback_from_images db gid images).game_genres = db.game_genres := by
  unfold cover_fallback_from_images
  repeat' split
  all_goals rfl

theorem cover_platforms (db : DB) (gid : Int) (images : List Screenshot) :
    (cover_fallback_from_images db gid images).game_platforms
      = db.game_platforms := by
  unfold cover_fallback_from_images
  repeat' split
  all_goals rfl

theorem cover_stores (db : DB) (gid : Int) (images : List Screenshot) :
    (cover_fallback_from_images db gid images).game_stores = db.game_stores := by
  unfold cover_fallback_from_images
  repeat' split
  all_goals rfl

theorem cover_media (db : DB) (gid : Int) (images : List Screenshot) :
    (cover_fallback_from_images db gid images).media = db.media := by
  unfold cover_fallback_from_images
  repeat' split
  all_goals rfl

theorem cover_screens (db : DB) (gid : Int) (images : List Screenshot) :
    (cover_fallback_from_images db gid images).screenshots = db.screenshots := by
  unfold cover_fallback_from_images
  repeat' split
  all_goals rfl

theorem cover_suggs (db : DB) (gid : Int) (images : List Screenshot) :
    (cover_fallback_from_images db gid images).game_suggestions
      = db.game_suggestions := by
  unfold cover_fallback_from_images
  repeat' split
  all_goals rfl

theorem screens_stable (t : List (Int × Str)) (gid : Int) (R2 : List (Int × Str))
    (hgid : ∀ x ∈ R2, x.1 = gid) :
    (if ((if (t.any fun r => decide (r.1 = gid)) = false ∧ R2 ≠ [] then t ++ R2
          else t).any fun r => decide (r.1 = gid)) = false ∧ R2 ≠ [] then
       (if (t.any fun r => decide (r.1 = gid)) = false ∧ R2 ≠ [] then t ++ R2
        else t) ++ R2
     else
       (if (t.any fun r => decide (r.1 = gid)) = false ∧ R2 ≠ [] then t ++ R2
        else t))
    = (if (t.any fun r => decide (r.1 = gid)) = false ∧ R2 ≠ [] then t ++ R2
       else t) := by
  by_cases hR : R2 = []
  · simp [hR]
  · by_cases hA : (t.any fun r => decide (r.1 = gid)) = false
    · have hC0 : (t.any fun r => decide (r.1 = gid)) = false ∧ R2 ≠ [] := ⟨hA, hR⟩
      rw [if_pos hC0]
      have hany : ((t ++ R2).any fun r => decide (r.1 = gid)) = true := by
        rcases R2 with _ | ⟨y, ys⟩
        · exact absurd rfl hR
        · rw [List.any_append]
          have hy : y.1 = gid := hgid y (List.mem_cons_self y ys)
          simp [hy]
      have hC1 : ¬(((t ++ R2).any fun r => decide (r.1 = gid)) = false ∧ R2 ≠ []) := by
        simp [hany]
      rw [if_neg hC1]
    · have hC0 : ¬((t.any fun r => decide (r.1 = gid)) = false ∧ R2 ≠ []) :=
        fun hc => hA hc.1
      rw [if_neg hC0, if_neg hC0]

/-- C2: on a fixed upstream snapshot, a second full enrichment pass leaves
every link/media/store/suggestion table with exactly the row count the
first pass produced — no duplicate rows.  (The suggestions table carries
its UNIQUE(game_id, position) invariant, which every real SQLite state
satisfies, as a hypothesis.) -/
theorem enrich_one_idempotent_counts (maxI : Nat) (snap : Snapshot) (gid : Int)
    (db0 db1 db2 : DB) (hnodup : rowsKeyNodup db0.game_suggestions)
    (h1 : enrich_one maxI snap gid db0 = .ok (db1, true))
    (h2 : enrich_one maxI snap gid db1 = .ok (db2, true)) :
    db2.game_developers.length = db1.game_developers.length ∧
    db2.game_publishers.length = db1.game_publishers.length ∧
    db2.game_tags.length = db1.game_tags.length ∧
    db2.game_genres.length = db1.game_genres.length ∧
    db2.game_platforms.length = db1.game_platforms.length ∧
    db2.game_series_links.length = db1.game_series_links.length ∧
    db2.game_additions_links.length = db1.game_additions_links.length ∧
    db2.game_stores.length = db1.game_stores.length ∧
    db2.media.length = db1.media.length ∧
    db2.screenshots.length = db1.screenshots.length ∧
    db2.game_suggestions.length = db1.game_suggestions.length := by
  rcases hd : snap.details with c | dOpt
  · simp only [enrich_one, hd] at h1
    exact absurd h1 (by simp)
  rcases dOpt with _ | d0
  · simp only [enrich_one, hd] at h1
    simp at h1
  rcases hp : snap.shotPages with c | pages
  · simp only [enrich_one, hd, hp] at h1
    exact absurd h1 (by simp)
  rcases hm : snap.movies with c | movieResults
  · simp only [enrich_one, hd, hp, hm] at h1
    exact absurd h1 (by simp)
  rcases hs : snap.suggested with cs | res
  · simp only [enrich_one, hd, hp, hm, hs, Except.ok.injEq, Prod.mk.injEq]
      at h1 h2
    obtain ⟨hdb1, -⟩ := h1
    obtain ⟨hdb2, -⟩ := h2
    subst hdb1
    subst hdb2
    refine ⟨?_, ?_, ?_, ?_, ?_, ?_, ?_, ?_, ?_, ?_, ?_⟩ <;>
      simp only [upsert_lists_eq, upsert_genres_platforms_eq, upsert_store_links_eq,
        upsert_links_eq, store_media_images_eq, store_media_videos_eq,
        store_suggestions_eq, core_devs, core_pubs, core_tags, core_series,
        core_adds, core_genres, core_platforms, core_stores, core_media,
        core_screens, core_suggs, cover_devs, cover_pubs, cover_tags, cover_series,
        cover_adds, cover_genres, cover_platforms, cover_stores, cover_media,
        cover_screens, cover_suggs]
    · rw [insertAll_idem wholeRowConflict db0.game_developers _
        (fun r _ => wholeRowConflict_self r)]
    · rw [insertAll_idem wholeRowConflict db0.game_publishers _
        (fun r _ => wholeRowConflict_self r)]
    · rw [insertAll_idem wholeRowConflict db0.game_tags _
        (fun r _ => wholeRowConflict_self r)]
    · rw [insertAll_idem wholeRowConflict db0.game_genres _
        (fun r _ => wholeRowConflict_self r)]
    · rw [insertAll_idem wholeRowConflict db0.game_platforms _
        (fun r _ => wholeRowConflict_self r)]
    · rw [insertAll_idem wholeRowConflict db0.game_series_links _
        (fun r _ => wholeRowConflict_self r)]
    · rw [insertAll_idem wholeRowConflict db0.game_additions_links _
        (fun r _ => wholeRowConflict_self r)]
    · rw [insertAll_idem gameStoresConflict db0.game_stores _
        (fun r _ => gameStoresConflict_self r)]
    · rw [insertAll_idem2 mediaConflict db0.media _ _
        (fun r _ => mediaConflict_self r) (fun r _ => mediaConflict_self r)]
    · exact congrArg List.length (screens_stable db0.screenshots gid _
        (mediaImageRows_legacy_gid gid ((fetch_all_screenshots maxI pages).1) 1))
  · simp only [enrich_one, hd, hp, hm, hs, Except.ok.injEq, Prod.mk.injEq]
      at h1 h2
    obtain ⟨hdb1, -⟩ := h1
    obtain ⟨hdb2, -⟩ := h2
    subst hdb1
    subst hdb2
    refine ⟨?_, ?_, ?_, ?_, ?_, ?_, ?_, ?_, ?_, ?_, ?_⟩ <;>
      simp only [upsert_lists_eq, upsert_genres_platforms_eq, upsert_store_links_eq,
        upsert_links_eq, store_media_images_eq, store_media_videos_eq,
        store_suggestions_eq, core_devs, core_pubs, core_tags, core_series,
        core_adds, core_genres, core_platforms, core_stores, core_media,
        core_screens, core_suggs, cover_devs, cover_pubs, cover_tags, cover_series,
        cover_adds, cover_genres, cover_platforms, cover_stores, cover_media,
        cover_screens, cover_suggs]
    · rw [insertAll_idem wholeRowConflict db0.game_developers _
        (fun r _ => wholeRowConflict_self r)]
    · rw [insertAll_idem wholeRowConflict db0.game_publishers _
        (fun r _ => wholeRowConflict_self r)]
    · rw [insertAll_idem wholeRowConflict db0.game_tags _
        (fun r _ => wholeRowConflict_self r)]
    · rw [insertAll_idem wholeRowConflict db0.game_genres _
        (fun r _ => wholeRowConflict_self r)]
    · rw [insertAll_idem wholeRowConflict db0.game_platforms _
        (fun r _ => wholeRowConflict_self r)]
    · rw [insertAll_idem wholeRowConflict db0.game_series_links _
        (fun r _ => wholeRowConflict_self r)]
    · rw [insertAll_idem wholeRowConflict db0.game_additions_links _
        (fun r _ => wholeRowConflict_self r)]
    · rw [insertAll_idem gameStoresConflict db0.game_stores _
        (fun r _ => gameStoresConflict_self r)]
    · rw [insertAll_idem2 mediaConflict db0.media _ _
        (fun r _ => mediaConflict_self r) (fun r _ => mediaConflict_self r)]
    · exact congrArg List.length (screens_stable db0.screenshots gid _
        (mediaImageRows_legacy_gid gid ((fetch_all_screenshots maxI pages).1) 1))
    · exact foldl_replaceInto_length _ _
        (foldl_replaceInto_keyNodup _ _ hnodup)
        (fun r hr => foldl_replaceInto_keyPresent _ _ r hr)

def c2Details : Details :=
  ⟨1, some (strOf "slug"), some (strOf "Game"), some (strOf "2020-01-01"), none,
   some 82, some (strOf "About"), some (strOf "https://example.com"),
   some ⟨some (strOf "Mature")⟩,
   some (strOf "https://media.rawg.io/media/games/c.jpg"), none,
   [some ⟨some (strOf "https://media.rawg.io/media/crop/600/400/games/s.jpg")⟩],
   [⟨some (strOf "Dev")⟩], [⟨some (strOf "Pub")⟩], [⟨some (strOf "Tag")⟩],
   [⟨some 4, some (strOf "Action")⟩],
   [⟨some ⟨some 1, some (strOf "PC")⟩⟩],
   [⟨some 10, some (strOf "https://store.example"),
     some ⟨some 1, some (strOf "Steam"), some (strOf "steam"),
       some (strOf "steampowered.com")⟩⟩]⟩

def c2Page : ShotsPage :=
  ⟨[⟨some (strOf "https://media.rawg.io/media/games/p1.jpg"), none, none⟩], false⟩

def c2MovieItem : MovieItem :=
  ⟨some ⟨some (strOf "https://example.com/v.mp4"), none⟩,
   some (strOf "https://example.com/t.jpg"), some (strOf "Trailer")⟩

def c2NameSlug : NameSlug := ⟨some (strOf "Sequel"), some (strOf "sequel")⟩

def c2SuggRaw : SuggItemRaw :=
  ⟨some 5, some (strOf "LikeThis"), none, none, some 80, [], []⟩

def c2Snap : Snapshot :=
  ⟨.ok (some c2Details), .ok [c2Page], .ok [c2MovieItem], .ok [c2NameSlug],
   .ok [c2NameSlug], .ok [c2SuggRaw]⟩

def c2DB0 : DB := ⟨[], [], [], [], [], [], [], [], [], [], [], [], [], [], []⟩

def c2DB1 : DB :=
  match enrich_one 50 c2Snap 1 c2DB0 with
  | .ok (db, _) => db
  | .error e => e.2

def c2DB2 : DB :=
  match enrich_one 50 c2Snap 1 c2DB1 with
  | .ok (db, _) => db
  | .error e => e.2

/-- Witness for C2 on a concrete snapshot that touches every table. -/
theorem enrich_one_idempotent_counts_witness :
    rowsKeyNodup c2DB0.game_suggestions ∧
    enrich_one 50 c2Snap 1 c2DB0 = .ok (c2DB1, true) ∧
    enrich_one 50 c2Snap 1 c2DB1 = .ok (c2DB2, true) ∧
    (c2DB2.game_developers.length = c2DB1.game_developers.length ∧
     c2DB2.game_publishers.length = c2DB1.game_publishers.length ∧
     c2DB2.game_tags.length = c2DB1.game_tags.length ∧
     c2DB2.game_genres.length = c2DB1.game_genres.length ∧
     c2DB2.game_platforms.length = c2DB1.game_platforms.length ∧
     c2DB2.game_series_links.length = c2DB1.game_series_links.length ∧
     c2DB2.game_additions_links.length = c2DB1.game_additions_links.length ∧
     c2DB2.game_stores.length = c2DB1.game_stores.length ∧
     c2DB2.media.length = c2DB1.media.length ∧
     c2DB2.screenshots.length = c2DB1.screenshots.length ∧
     c2DB2.game_suggestions.length = c2DB1.game_suggestions.length) := by
  refine ⟨List.Pairwise.nil, rfl, rfl, ?_⟩
  exact enrich_one_idempotent_counts 50 c2Snap 1 c2DB0 c2DB1 c2DB2
    List.Pairwise.nil rfl rfl

end LatestGames
